import Mathlib

/-!
Verification development for the samur.ai city-simulation engine.

We give a shallow embedding of the core simulation code
(src/src/envs/citysim.py and src/src/envs/traffic_manager.py) and prove or
refute the specification claims about it.

Modelling conventions:
* Python floats / datetimes / timedeltas are modelled by rationals (seconds).
* Python dicts are modelled by association lists in insertion order
  (`alookup` returns the first match, `aset` overwrites the first match or
  appends a new entry at the end, matching dict assignment semantics).
* The two process-global pseudo-random sources (numpy's, seeded via
  np.random.seed, and the stdlib random module used by TrafficManager, which
  the environment never seeds) are modelled by explicit stream states
  (`NpRng`, `PyRng`).  Library sampling functions (np.random.poisson,
  np.random.choice, random.triangular) are modelled as deterministic
  functions of the hidden stream state whose result lies in the documented
  range; only this determinism and range are used by any proof.
* The shapely geometry layer (`_obtain_route_cuts`, polygon point sampling)
  and the datetime calendar breakdown are external collaborators; they are
  modelled as explicit oracle parameters (`Geometry`, `Calendar`) threaded
  through the engine exactly where the source consults them.
* Fallible dictionary indexing (Python KeyError / ZeroDivisionError) is
  modelled with `Except`.  Where the source raises out of `step`, the
  embedding returns the error together with the partially mutated state,
  since the Python object retains all mutations made before the raise.
-/

namespace Samur

/-- Error outcomes of a Python `step` call in this embedding. -/
inductive PyErr where
  | keyError
  | zeroDivisionError
deriving DecidableEq

/-- A location dict: keys `x`, `y`, `district_code`. -/
structure Loc where
  x : ℚ
  y : ℚ
  district_code : ℤ
deriving DecidableEq

/-- recordclass("Hospital", ["name", "loc", "available_amb"]). -/
structure Hospital where
  name : String
  loc : Loc
  available_amb : ℤ
deriving DecidableEq

/-- recordclass("Emergency", ["loc", "severity", "tappearance"]). -/
structure Emergency where
  loc : Loc
  severity : ℕ
  tappearance : ℚ
deriving DecidableEq

/-- recordclass("MovingAmbulance", ["tobjective", "thospital", "destination", "reward"]). -/
structure MovingAmb where
  tobjective : ℚ
  thospital : ℚ
  destination : ℤ
  reward : ℤ
deriving DecidableEq

/-- First-match association-list lookup: Python `d[k]` (as an Option). -/
def alookup {α β : Type} [DecidableEq α] (k : α) : List (α × β) → Option β
  | [] => none
  | kv :: rest => if kv.1 = k then some kv.2 else alookup k rest

/-- Python dict assignment `d[k] = v`: overwrite the first entry with key `k`,
or append a new entry at the end (dicts keep insertion order). -/
def aset {α β : Type} [DecidableEq α] (k : α) (v : β) : List (α × β) → List (α × β)
  | [] => [(k, v)]
  | kv :: rest => if kv.1 = k then (k, v) :: rest else kv :: aset k v rest

/-- Keys of the traffic dictionary: district codes, plus the string key
"Missing" that `displacement_time` adds for the unassigned residual. -/
inductive DKey where
  | dist : ℤ → DKey
  | missing
deriving DecidableEq

/-- Hidden state of the (unseeded) stdlib `random` module, as a stream of
rational draws with a position. -/
structure PyRng where
  vals : ℕ → ℚ
  pos : ℕ

/-- Advance the stdlib random stream by one draw. -/
def PyRng.next (r : PyRng) : ℚ × PyRng :=
  (r.vals r.pos, { r with pos := r.pos + 1 })

/-- Modelled from the library interface: `random.triangular(low, high, mode)`
returns some value in [low, high] determined by the generator's hidden state;
the mode only shapes the distribution, which no proof depends on. -/
def triangular (low high _mode : ℚ) (r : PyRng) : ℚ × PyRng :=
  let (u, r2) := r.next
  (max low (min high u), r2)

/-- Hidden state of numpy's global generator (np.random), seeded by
`np.random.seed`. -/
structure NpRng where
  vals : ℕ → ℚ
  pos : ℕ

/-- Advance the numpy stream by one draw. -/
def NpRng.next (r : NpRng) : ℚ × NpRng :=
  (r.vals r.pos, { r with pos := r.pos + 1 })

/-- Modelled from the library interface: `int(np.random.poisson(lam, 1))`
returns a natural number determined by the generator's hidden state; the rate
parameter only shapes the distribution, which no proof depends on. -/
def npPoisson (_lam : ℚ) (r : NpRng) : ℕ × NpRng :=
  let (u, r2) := r.next
  (Int.toNat ⌊u⌋, r2)

/-- Modelled from the library interface:
`np.random.choice(np.arange(len(weights)) + 1, p=weights)` picks an integer in
1..len(weights), determined by the generator's hidden state. -/
def npChoice (weights : List ℚ) (r : NpRng) : ℤ × NpRng :=
  let (u, r2) := r.next
  ((1 : ℤ) + ((Int.toNat ⌊u⌋ % weights.length : ℕ) : ℤ), r2)

/-!  ## TrafficManager (src/src/envs/traffic_manager.py)  -/

/-- State of `TrafficManager`.  `districts` is the district key list from the
configuration; `traffic` is the per-district load dict; `rng` is the
process-global stdlib random source the class draws from. -/
structure TrafficManager where
  update_period : ℚ
  max_avg_speed : ℚ
  max_load : ℚ
  last_update : ℚ
  districts : List ℤ
  traffic : List (DKey × ℚ)
  rng : PyRng

/-- `TrafficManager.__init__`.  The source's keyword defaults are
update_period = 9000, max_avg_speed = 60.0, max_load = 100.0; callers of this
embedding pass them explicitly. -/
def TrafficManager.init (start_time : ℚ) (districts : List ℤ)
    (update_period max_avg_speed max_load : ℚ) (rng : PyRng) : TrafficManager :=
  { update_period := update_period
    max_avg_speed := max_avg_speed
    max_load := max_load
    last_update := start_time
    districts := districts
    traffic := districts.map (fun d => (DKey.dist d, 0))
    rng := rng }

/-- Resample every key of the traffic dict from
`random.triangular(5, max_load - 5, 30)`, threading the stdlib stream. -/
def sampleLoads (max_load : ℚ) : List DKey → PyRng → List (DKey × ℚ) × PyRng
  | [], r => ([], r)
  | k :: ks, r =>
    let (v, r2) := triangular 5 (max_load - 5) 30 r
    let (rest, r3) := sampleLoads max_load ks r2
    ((k, v) :: rest, r3)

/-- `TrafficManager.update_traffic`: resample all loads only when the elapsed
time since the last update strictly exceeds the update period. -/
def TrafficManager.update_traffic (tm : TrafficManager) (time : ℚ) : TrafficManager :=
  if tm.update_period < time - tm.last_update then
    let (tr, rng2) := sampleLoads tm.max_load (tm.traffic.map Prod.fst) tm.rng
    { tm with traffic := tr, rng := rng2, last_update := time }
  else tm

/-- `TrafficManager._get_speed`. -/
def TrafficManager.get_speed (tm : TrafficManager) (traffic_load : ℚ) : ℚ :=
  tm.max_avg_speed * (1 - traffic_load / tm.max_load)

/-- Look up a list of keys in the traffic dict; `none` models the KeyError
raised when some key is absent. -/
def lookupLoads (tr : List (DKey × ℚ)) : List DKey → Option (List ℚ)
  | [] => some []
  | k :: ks =>
    match alookup k tr with
    | none => none
    | some v =>
      match lookupLoads tr ks with
      | none => none
      | some vs => some (v :: vs)

/-- `TrafficManager.displacement_time`: refresh traffic, assign the "Missing"
bucket the average load of the other districts of this trip, and sum
distance/speed over all buckets, converted to seconds ( * 3600 ).
A missing district key raises KeyError; an empty non-Missing key set raises
ZeroDivisionError (division by `len`).  The source's true division by a speed
of exactly zero cannot arise in the theorems below, whose hypotheses keep all
loads strictly below max_load. -/
def TrafficManager.displacement_time (tm0 : TrafficManager)
    (distance_per_district : List (DKey × ℚ)) (time : ℚ) :
    Except PyErr (ℚ × TrafficManager) :=
  let tm := tm0.update_traffic time
  match lookupLoads tm.traffic
      (((distance_per_district.map Prod.fst).filter (fun k => k ≠ DKey.missing))) with
  | none => .error .keyError
  | some other_districts_traffic =>
    if other_districts_traffic.length = 0 then .error .zeroDivisionError
    else
      let avg := other_districts_traffic.sum / (other_districts_traffic.length : ℚ)
      let traffic2 := aset DKey.missing avg tm.traffic
      match lookupLoads traffic2 (distance_per_district.map Prod.fst) with
      | none => .error .keyError
      | some loads =>
        .ok ((((distance_per_district.map Prod.snd).zip loads).map
              (fun dl => dl.1 / tm.get_speed dl.2)).sum * 3600,
             { tm with traffic := traffic2 })

/-!  ## CitySim (src/src/envs/citysim.py)  -/

/-- The datetime calendar breakdown used by `_generate_emergencies` and
`_get_obs`; an external stdlib collaborator, modelled as an oracle on the
simulated time (rational seconds). -/
structure Calendar where
  month : ℚ → ℤ
  day : ℚ → ℤ
  weekday : ℚ → ℤ
  hour : ℚ → ℤ
  minute : ℚ → ℤ

/-- The shapely/geopandas geometry layer, modelled as an oracle:
`sqrtFn` is the library square root applied to squared distances (numpy/math
sqrt); `routeCuts` is `_obtain_route_cuts` (intersection points of the
straight route with each district boundary); `randomPoint` is
`_random_loc_in_distric` (rejection sampling inside a district polygon,
consuming numpy draws). -/
structure Geometry where
  sqrtFn : ℚ → ℚ
  routeCuts : (ℚ × ℚ) → (ℚ × ℚ) → List (ℤ × List (ℚ × ℚ))
  randomPoint : ℤ → NpRng → Loc × NpRng

/-- The city configuration (config YAML), after `_configure` has run:
hospital dict (with configured `available_amb` and geometry-corrected
district codes), district keys, severity data. -/
structure Config where
  hospitals : List (ℤ × Hospital)
  districts : List ℤ
  severity_levels : ℕ
  shown_emergencies_per_severity : ℕ
  frequency : ℕ → ℚ
  hourly_dist : ℕ → ℤ → ℚ
  daily_dist : ℕ → ℤ → ℚ
  monthly_dist : ℕ → ℤ → ℚ
  district_prob : ℕ → List (ℤ × ℚ)

/-- Immutable environment data of a `CitySim` instance: configuration,
oracles, stress multiplier, step length, and the deterministic effect of
`np.random.seed` (seed value to stream). -/
structure Env where
  cfg : Config
  cal : Calendar
  geo : Geometry
  stress : ℚ
  time_step_seconds : ℚ
  npSeedFn : ℕ → ℕ → ℚ

/-- `CitySim.seed`: np.random.seed resets the numpy global stream as a
deterministic function of the seed value. -/
def seed (env : Env) (value : ℕ) : NpRng :=
  { vals := env.npSeedFn value, pos := 0 }

/-- The mutable state of a `CitySim` instance between calls.
`active_emergencies` index 0 holds the "dummy" sentinel entry, which the
source never inspects (tier 0 skips before touching its queue). -/
structure CityState where
  time : ℚ
  time_start : ℚ
  time_end : ℚ
  hospitals : List (ℤ × Hospital)
  active_emergencies : List (List Emergency)
  outgoing_ambulances : List MovingAmb
  incoming_ambulances : List MovingAmb
  tm : TrafficManager
  npRng : NpRng

/-- `CitySim.reset`: time to `time_start`, empty queues and ambulance lists,
fresh `TrafficManager` anchored at `time_start` (with its source defaults
9000 / 60.0 / 100.0).  `_configure` sets `self.hospitals = config["hospitals"]`
and `self.config = config`, so `self.hospitals` and
`self.config["hospitals"]` are the same dict and reset's restore loop
`self.hospitals[i]["available_amb"] = self.config["hospitals"][i]["available_amb"]`
writes each entry the value it just read from that same entry: a no-op.
Hospital availabilities are therefore NOT restored; `hospitals` is the dict
as it stands when reset is called (`env.cfg.hospitals` for a freshly
constructed environment).  The two global random streams persist across
reset. -/
def reset (env : Env) (hospitals : List (ℤ × Hospital)) (time_start time_end : ℚ)
    (np : NpRng) (py : PyRng) : CityState :=
  { time := time_start
    time_start := time_start
    time_end := time_end
    hospitals := hospitals
    active_emergencies := List.replicate (env.cfg.severity_levels + 1) []
    outgoing_ambulances := []
    incoming_ambulances := []
    tm := TrafficManager.init time_start env.cfg.districts 9000 60 100 py
    npRng := np }

/-- `CitySim._cartesian`, inner loop: sum of distances between consecutive
non-overlapping pairs (indices (0,1), (2,3), ...). -/
def cartPairs (sqrtFn : ℚ → ℚ) : List (ℚ × ℚ) → ℚ
  | p1 :: p2 :: rest =>
    sqrtFn ((p1.1 - p2.1) * (p1.1 - p2.1) + (p1.2 - p2.2) * (p1.2 - p2.2)) +
      cartPairs sqrtFn rest
  | _ => 0

/-- `CitySim._cartesian`: returns 0 for an odd number of points. -/
def cartesian (sqrtFn : ℚ → ℚ) (pts : List (ℚ × ℚ)) : ℚ :=
  if pts.length % 2 ≠ 0 then 0 else cartPairs sqrtFn pts

/-- `CitySim._get_segments_per_district`: take the route cuts, seed the dict
with the origin district when empty, prepend the origin and append the
destination to their districts' cut lists (KeyError if those districts are
absent from a non-empty cuts dict), measure each district's list with
`_cartesian`, and add the "Missing" residual bucket. -/
def get_segments_per_district (geo : Geometry) (district_origin : ℤ)
    (origin : ℚ × ℚ) (district_destination : ℤ) (destination : ℚ × ℚ) :
    Except PyErr (List (DKey × ℚ)) :=
  let cuts0 := geo.routeCuts origin destination
  let cuts1 := if cuts0.isEmpty then [(district_origin, ([] : List (ℚ × ℚ)))] else cuts0
  match alookup district_origin cuts1 with
  | none => .error .keyError
  | some l1 =>
    let cuts2 := aset district_origin (origin :: l1) cuts1
    match alookup district_destination cuts2 with
    | none => .error .keyError
    | some l2 =>
      let cuts3 := aset district_destination (l2 ++ [destination]) cuts2
      let distances := cuts3.map (fun kv => (DKey.dist kv.1, cartesian geo.sqrtFn kv.2))
      .ok (distances ++
        [(DKey.missing,
          cartesian geo.sqrtFn [origin, destination] - (distances.map Prod.snd).sum)])

/-- `CitySim._displacement_time` on a state: route segmentation followed by
`TrafficManager.displacement_time` at the current simulated time; the
returned duration is in seconds.  On the error path the traffic manager's
own partial mutation is dropped (no theorem inspects it). -/
def dispState (env : Env) (s : CityState) (start finish : Loc) :
    Except PyErr (ℚ × CityState) :=
  match get_segments_per_district env.geo start.district_code (start.x, start.y)
      finish.district_code (finish.x, finish.y) with
  | .error e => .error e
  | .ok segments =>
    match s.tm.displacement_time segments s.time with
    | .error e => .error e
    | .ok (t, tm2) => .ok (t, { s with tm := tm2 })

/-- Python `timedelta(seconds = t).seconds`: the timedelta normalizes to
(days, seconds, microseconds) with 0 ≤ seconds < 86400, so the attribute is
the floor of t modulo 86400 — nonnegative even for negative t. -/
def tdSeconds (t : ℚ) : ℤ :=
  ⌊t - 86400 * ⌊t / 86400⌋⌋

/-- `CitySim._reward_f`: `time_diff.seconds * severity`. -/
def reward_f (time_diff : ℚ) (severity : ℕ) : ℤ :=
  tdSeconds time_diff * severity

/-- Inner loop of `_generate_emergencies`: draw a district and a point inside
it for each of the `n` new emergencies of this severity and append them to
that severity's FIFO queue. -/
def genMany (geo : Geometry) (weights : List ℚ) (severity : ℕ) (time : ℚ) :
    ℕ → List (List Emergency) → NpRng → List (List Emergency) × NpRng
  | 0, queues, rng => (queues, rng)
  | n + 1, queues, rng =>
    let (district, rng2) := npChoice weights rng
    let (loc, rng3) := geo.randomPoint district rng2
    let em : Emergency := { loc := loc, severity := severity, tappearance := time }
    genMany geo weights severity time n
      (queues.set severity ((queues.getD severity []) ++ [em])) rng3

/-- One severity tier of `_generate_emergencies`: Poisson count from the
time-modulated frequency, then `genMany`.  `district_prob` is consulted (and
normalized) only when the count is nonzero, exactly as in the source. -/
def genSev (env : Env) (time : ℚ) (severity : ℕ)
    (queues : List (List Emergency)) (rng : NpRng) :
    List (List Emergency) × NpRng :=
  let hour := env.cal.hour time
  let weekday := env.cal.weekday time + 1
  let month := env.cal.month time
  let base_frequency := env.cfg.frequency severity
  let current_frequency := base_frequency * env.cfg.hourly_dist severity hour *
    env.cfg.daily_dist severity weekday * env.cfg.monthly_dist severity month * env.stress
  let period_frequency := current_frequency * env.time_step_seconds
  let (num_new_emergencies, rng2) := npPoisson period_frequency rng
  if num_new_emergencies = 0 then (queues, rng2)
  else
    let district_weights := (env.cfg.district_prob severity).map Prod.snd
    let normalized := district_weights.map (fun w => w / district_weights.sum)
    genMany env.geo normalized severity time num_new_emergencies queues rng2

/-- Fold of `genSev` over the severity tiers. -/
def genAll (env : Env) (time : ℚ) :
    List ℕ → List (List Emergency) → NpRng → List (List Emergency) × NpRng
  | [], queues, rng => (queues, rng)
  | sev :: rest, queues, rng =>
    let (qs2, rng2) := genSev env time sev queues rng
    genAll env time rest qs2 rng2

/-- `CitySim._generate_emergencies`: severities 1 .. severity_levels. -/
def generate_emergencies (env : Env) (time : ℚ)
    (queues : List (List Emergency)) (rng : NpRng) :
    List (List Emergency) × NpRng :=
  genAll env time (List.range' 1 env.cfg.severity_levels) queues rng

/-- First resolution loop of `step` (outgoing ambulances): returns
(new_outgoing, ambulances appended to the incoming list, reward total). -/
def splitOutgoing (time : ℚ) : List MovingAmb → List MovingAmb × List MovingAmb × ℤ
  | [] => ([], [], 0)
  | amb :: rest =>
    let (keep, moved, r) := splitOutgoing time rest
    if amb.tobjective ≤ time then (keep, amb :: moved, amb.reward + r)
    else (amb :: keep, moved, r)

/-- Second resolution loop of `step` (incoming ambulances): an arrived
ambulance credits its destination hospital (KeyError if unknown — the
partially mutated dict is kept); a still-travelling one is appended to
`new_outgoing` — the source appends it to the wrong list (`new_outgoing`
instead of `new_incoming`, line 147), and this embedding reproduces that.
Returns (hospitals, ambulances appended to new_outgoing, error). -/
def resolveIncoming (time : ℚ) (hs : List (ℤ × Hospital)) :
    List MovingAmb → List (ℤ × Hospital) × List MovingAmb × Option PyErr
  | [] => (hs, [], none)
  | amb :: rest =>
    if amb.thospital ≤ time then
      match alookup amb.destination hs with
      | none => (hs, [], some .keyError)
      | some h =>
        resolveIncoming time
          (aset amb.destination { h with available_amb := h.available_amb + 1 } hs) rest
    else
      let (hs2, out, e) := resolveIncoming time hs rest
      (hs2, amb :: out, e)

/-- One iteration of the action loop of `step` for severity tier `sev` with
the action's start/end hospital ids for that tier.  Both ids are looked up
before any null check (source lines 154-155), so an id absent from the
hospitals dict raises KeyError even when it is the null sentinel 0. -/
def applyTier (env : Env) (sev : ℕ) (start_hospital_id end_hospital_id : ℤ)
    (s : CityState) : Except (PyErr × CityState) CityState :=
  match alookup start_hospital_id s.hospitals with
  | none => .error (.keyError, s)
  | some start_hospital =>
    match alookup end_hospital_id s.hospitals with
    | none => .error (.keyError, s)
    | some end_hospital =>
      if sev = 0 then
        if end_hospital_id = 0 ∨ start_hospital_id = 0 then .ok s
        else
          let s1 :=
            { s with
                hospitals := aset start_hospital_id
                  ({ start_hospital with
                      available_amb := start_hospital.available_amb - 1 }) s.hospitals }
          match dispState env s1 start_hospital.loc end_hospital.loc with
          | .error e => .error (e, s1)
          | .ok (tthospital, s2) =>
            .ok { s2 with incoming_ambulances := s2.incoming_ambulances ++
              [{ tobjective := s2.time, thospital := s2.time + tthospital,
                 destination := end_hospital_id, reward := 0 }] }
      else
        if start_hospital_id = 0 then .ok s
        else
          match s.active_emergencies.getD sev [] with
          | [] => .ok s
          | emergency :: qrest =>
            if start_hospital.available_amb = 0 then .ok s
            else
              let endp := if end_hospital_id = 0 then (start_hospital_id, start_hospital)
                          else (end_hospital_id, end_hospital)
              let s1 :=
                { s with
                    hospitals := aset start_hospital_id
                      ({ start_hospital with
                          available_amb := start_hospital.available_amb - 1 }) s.hospitals
                    active_emergencies := s.active_emergencies.set sev qrest }
              match dispState env s1 start_hospital.loc emergency.loc with
              | .error e => .error (e, s1)
              | .ok (ttobj, s2) =>
                match dispState env s2 emergency.loc endp.2.loc with
                | .error e => .error (e, s2)
                | .ok (tt2, s3) =>
                  let tthospital := tt2 + ttobj
                  let time_diff := -ttobj
                  .ok { s3 with outgoing_ambulances := s3.outgoing_ambulances ++
                    [{ tobjective := s3.time + ttobj, thospital := s3.time + tthospital,
                       destination := endp.1, reward := reward_f time_diff sev }] }

/-- The action: two sequences of hospital ids indexed by severity tier. -/
structure Action where
  starts : ℕ → ℤ
  ends : ℕ → ℤ

/-- Fold of `applyTier` over a list of severity tiers, stopping at the first
raised error (which aborts the Python loop). -/
def applyTiersAux (env : Env) (a : Action) :
    List ℕ → CityState → Except (PyErr × CityState) CityState
  | [], s => .ok s
  | sev :: rest, s =>
    match applyTier env sev (a.starts sev) (a.ends sev) s with
    | .error es => .error es
    | .ok s2 => applyTiersAux env a rest s2

/-- The action loop of `step`: `enumerate(self.active_emergencies)`. -/
def applyTiers (env : Env) (a : Action) (s : CityState) :
    Except (PyErr × CityState) CityState :=
  applyTiersAux env a (List.range s.active_emergencies.length) s

/-- Python `int(q)` (truncation toward zero). -/
def pyInt (q : ℚ) : ℤ :=
  if q < 0 then -⌊-q⌋ else ⌊q⌋

/-- The observation: hospitals table, per-severity emergencies table, and
time-context vector, with all cells coerced to rationals (numpy arrays). -/
structure Obs where
  hospitals_table : List (List ℚ)
  emergencies_table : List (List (List ℚ))
  time_data : List ℚ
deriving DecidableEq

/-- `CitySim._get_obs`. -/
def get_obs (env : Env) (s : CityState) : Obs :=
  let hospitals_table := s.hospitals.map (fun kv =>
    let incoming := ((s.outgoing_ambulances ++ s.incoming_ambulances).filter
      (fun amb => amb.destination = kv.1)).length
    [(kv.1 : ℚ), kv.2.loc.x, kv.2.loc.y, (kv.2.loc.district_code : ℚ),
     (kv.2.available_amb : ℚ), (incoming : ℚ)])
  let emergencies_table := (List.range s.active_emergencies.length).filterMap
    (fun severity =>
      if severity = 0 then none
      else some ((List.range env.cfg.shown_emergencies_per_severity).map (fun order =>
        match (s.active_emergencies.getD severity []).get? order with
        | some emergency =>
          [(severity : ℚ), (order : ℚ),
           ((pyInt ((s.time - emergency.tappearance) / env.time_step_seconds)) : ℚ),
           emergency.loc.x, emergency.loc.y, (emergency.loc.district_code : ℚ)]
        | none => [0, (order : ℚ), 0, 0, 0, 0])))
  let time_data := [env.time_step_seconds, (env.cal.month s.time : ℚ),
    (env.cal.day s.time : ℚ), ((env.cal.weekday s.time + 1 : ℤ) : ℚ),
    (env.cal.hour s.time : ℚ), (env.cal.minute s.time : ℚ)]
  { hospitals_table := hospitals_table
    emergencies_table := emergencies_table
    time_data := time_data }

/-- Opening phase of `CitySim.step`: advance the simulated time by one step,
refresh the traffic manager, and generate new emergencies. -/
def stepGen (env : Env) (s : CityState) : CityState :=
  let s1 := { s with time := s.time + env.time_step_seconds }
  let s2 := { s1 with tm := s1.tm.update_traffic s1.time }
  let gq := generate_emergencies env s2.time s2.active_emergencies s2.npRng
  { s2 with active_emergencies := gq.1, npRng := gq.2 }

/-- `CitySim.step`: advance time, refresh traffic, generate emergencies
(`stepGen`), resolve outgoing then incoming ambulances, apply the action tier
by tier, and return (observation, reward, done) — or the raised error
together with the partially mutated state. -/
def step (env : Env) (s : CityState) (a : Action) :
    Except PyErr (Obs × ℤ × Bool) × CityState :=
  let s3 := stepGen env s
  let so := splitOutgoing s3.time s3.outgoing_ambulances
  let incomingIter := s3.incoming_ambulances ++ so.2.1
  let ri := resolveIncoming s3.time s3.hospitals incomingIter
  match ri.2.2 with
  | some e =>
    (.error e,
     { s3 with
        hospitals := ri.1
        outgoing_ambulances := so.1 ++ ri.2.1
        incoming_ambulances := incomingIter })
  | none =>
    let s4 :=
      { s3 with
          hospitals := ri.1
          outgoing_ambulances := so.1 ++ ri.2.1
          incoming_ambulances := [] }
    match applyTiers env a s4 with
    | .error (e, s5) => (.error e, s5)
    | .ok s5 => (.ok (get_obs env s5, so.2.2, decide (s5.time_end ≤ s5.time)), s5)

/-- Run a sequence of `step` calls from a state, stopping at the first raised
error (which ends the Python episode). -/
def runSteps (env : Env) : CityState → List Action →
    List (Except PyErr (Obs × ℤ × Bool)) × CityState
  | s, [] => ([], s)
  | s, a :: rest =>
    match step env s a with
    | (.error e, s2) => ([.error e], s2)
    | (.ok out, s2) =>
      let r := runSteps env s2 rest
      (.ok out :: r.1, r.2)

/-- Whether an `Except` result is a success. -/
def exceptIsOk {ε α : Type} : Except ε α → Bool
  | .ok _ => true
  | .error _ => false

/-- States reachable by any sequence of `reset` and error-free `step` calls
(a raised step ends the episode, so the agent only ever acts on these).
`fresh` is the first reset of a freshly constructed environment, whose
hospitals dict is the configuration's; `reset` re-resets a reachable state,
keeping its (possibly mutated) hospitals dict, since the aliased restore
loop is a no-op. -/
inductive Reachable (env : Env) : CityState → Prop
  | fresh : ∀ time_start time_end np py,
      Reachable env (reset env env.cfg.hospitals time_start time_end np py)
  | reset : ∀ s time_start time_end np py, Reachable env s →
      Reachable env (reset env s.hospitals time_start time_end np py)
  | step : ∀ s a, Reachable env s → exceptIsOk (step env s a).1 = true →
      Reachable env (step env s a).2

/-- States reachable from the first `reset` of a freshly constructed
environment by error-free `step` calls alone, with no further reset. -/
inductive StepReach (env : Env) : CityState → Prop
  | fresh : ∀ time_start time_end np py,
      StepReach env (reset env env.cfg.hospitals time_start time_end np py)
  | step : ∀ s a, StepReach env s → exceptIsOk (step env s a).1 = true →
      StepReach env (step env s a).2

/-!  ## Derived quantities and proof-support definitions  -/

/-- Total available ambulances over the hospitals dict. -/
def sumAvail (hs : List (ℤ × Hospital)) : ℤ :=
  (hs.map (fun kv => kv.2.available_amb)).sum

/-- The total configured fleet size: the sum of the configured
`available_amb` over all hospitals. -/
def fleetSize (env : Env) : ℤ :=
  sumAvail env.cfg.hospitals

/-- The conserved quantity: available plus in-flight ambulances. -/
def fleetCount (s : CityState) : ℤ :=
  sumAvail s.hospitals + s.outgoing_ambulances.length + s.incoming_ambulances.length

/-- Replace the stdlib random source buried in a state's traffic manager
(used to compare runs that differ only in that unseeded source). -/
def setPy (s : CityState) (r : PyRng) : CityState :=
  { s with tm := { s.tm with rng := r } }

/-- Map a function over the state in both the ok and error outcomes of a
tier application. -/
def exPyMap (f : CityState → CityState) :
    Except (PyErr × CityState) CityState → Except (PyErr × CityState) CityState
  | .ok s => .ok (f s)
  | .error (e, s) => .error (e, f s)

/-- The state carried by a tier-application outcome, successful or not. -/
def resState : Except (PyErr × CityState) CityState → CityState
  | .ok s => s
  | .error (_, s) => s

/-- Whether a step outcome is a raised KeyError. -/
def isKeyError : Except PyErr (Obs × ℤ × Bool) → Bool
  | .error .keyError => true
  | _ => false

/-- Whether a tier-application outcome is a raised KeyError. -/
def tierIsKeyError : Except (PyErr × CityState) CityState → Bool
  | .error (.keyError, _) => true
  | _ => false

/-- The reward component of a step outcome. -/
def stepReward (r : Except PyErr (Obs × ℤ × Bool)) : Option ℤ :=
  r.toOption.map (fun o => o.2.1)

/-- Step outcomes of a run, with errors flattened to `none` (comparable). -/
def outsOf (l : List (Except PyErr (Obs × ℤ × Bool))) : List (Option (Obs × ℤ × Bool)) :=
  l.map Except.toOption

/-- The traffic manager of a fresh environment after a sequence of
`update_traffic` calls. -/
def trafficAfter (env : Env) (time_start time_end : ℚ) (np : NpRng) (py : PyRng)
    (times : List ℚ) : TrafficManager :=
  times.foldl TrafficManager.update_traffic
    (reset env env.cfg.hospitals time_start time_end np py).tm

/-!  ## Concrete instances used by evaluations and witnesses  -/

/-- A numpy stream of zeros: every Poisson draw yields count 0, so no
emergencies are generated. -/
def npZero : NpRng := { vals := fun _ => 0, pos := 0 }

/-- A stdlib random stream of zeros. -/
def pyZero : PyRng := { vals := fun _ => 0, pos := 0 }

/-- A stdlib random stream whose triangular draws all yield load 10. -/
def py10 : PyRng := { vals := fun _ => 10, pos := 0 }

/-- A stdlib random stream whose triangular draws all yield load 90. -/
def py90 : PyRng := { vals := fun _ => 90, pos := 0 }

/-- A trivial calendar oracle (all breakdown fields zero). -/
def calZero : Calendar :=
  { month := fun _ => 0, day := fun _ => 0, weekday := fun _ => 0,
    hour := fun _ => 0, minute := fun _ => 0 }

/-- Geometry oracle: no route cuts, square roots collapsed to zero
(all points coincide). -/
def geo0 : Geometry :=
  { sqrtFn := fun _ => 0, routeCuts := fun _ _ => [],
    randomPoint := fun d r => ({ x := 0, y := 0, district_code := d }, r) }

/-- Geometry oracle: no route cuts, the square root modelled as the identity
(so the straight-line distance of the example pair below is 25). -/
def geo4 : Geometry :=
  { sqrtFn := fun q => q, routeCuts := fun _ _ => [],
    randomPoint := fun d r => ({ x := 0, y := 0, district_code := d }, r) }

/-- Geometry oracle whose square root always yields 5/3 km, so that a trip at
60 km/h takes exactly 100 seconds. -/
def geo3 : Geometry :=
  { sqrtFn := fun _ => 5 / 3, routeCuts := fun _ _ => [],
    randomPoint := fun d r => ({ x := 0, y := 0, district_code := d }, r) }

def locA : Loc := { x := 0, y := 0, district_code := 1 }

def locB : Loc := { x := 5, y := 0, district_code := 1 }

/-- The dummy hospital entry for the null id 0. -/
def h0 : Hospital := { name := "X0", loc := locA, available_amb := 0 }

def h1 : Hospital := { name := "H1", loc := locA, available_amb := 0 }

def h2 : Hospital := { name := "H2", loc := locA, available_amb := 1 }

/-- Two-hospital configuration (plus a dummy entry for the null id), one
district, one severity level, no emergency generation. -/
def cfg1 : Config :=
  { hospitals := [(0, h0), (1, h1), (2, h2)]
    districts := [1]
    severity_levels := 1
    shown_emergencies_per_severity := 1
    frequency := fun _ => 0
    hourly_dist := fun _ _ => 0
    daily_dist := fun _ _ => 0
    monthly_dist := fun _ _ => 0
    district_prob := fun _ => [(1, 1)] }

def env1 : Env :=
  { cfg := cfg1, cal := calZero, geo := geo0, stress := 1,
    time_step_seconds := 60, npSeedFn := fun _ _ => 0 }

/-- The all-null action. -/
def act0 : Action := { starts := fun _ => 0, ends := fun _ => 0 }

/-- Reposition one ambulance from hospital 1 to hospital 2 (tier 0). -/
def actMove12 : Action :=
  { starts := fun sev => if sev = 0 then 1 else 0,
    ends := fun sev => if sev = 0 then 2 else 0 }

/-- Action whose tier-0 start references the nonexistent hospital id 99. -/
def act99 : Action := { starts := fun _ => 99, ends := fun _ => 1 }

def s0 : CityState := reset env1 env1.cfg.hospitals 0 1000000 npZero pyZero

/-- C7 trace: reposition from an empty hospital, then let the ambulance
arrive. -/
def c7s1 : CityState := (step env1 s0 actMove12).2

def c7s2 : CityState := (step env1 c7s1 act0).2

/-- Reposition the single ambulance from hospital 2 to hospital 1 (tier 0). -/
def actMove21 : Action :=
  { starts := fun sev => if sev = 0 then 2 else 0,
    ends := fun sev => if sev = 0 then 1 else 0 }

/-- C2 trace: dispatch the single ambulance, then reset.  Reset clears the
in-flight lists but — the restore loop being a no-op — keeps the decremented
availability. -/
def c2s1 : CityState := (step env1 s0 actMove21).2

def c2r : CityState := reset env1 c2s1.hospitals 0 1000000 npZero pyZero

/-- C1 trace start: one incoming ambulance still en route to its hospital. -/
def c1s0 : CityState :=
  { s0 with incoming_ambulances :=
      [{ tobjective := 0, thospital := 1000, destination := 1, reward := 7 }] }

def c1r1 : Except PyErr (Obs × ℤ × Bool) × CityState := step env1 c1s0 act0

def c1r2 : Except PyErr (Obs × ℤ × Bool) × CityState := step env1 c1r1.2 act0

def c1r3 : Except PyErr (Obs × ℤ × Bool) × CityState := step env1 c1r2.2 act0

/-- C3 scenario: a severity-1 emergency at the hospital district, travel
time exactly 100 seconds. -/
def cfg3 : Config := { cfg1 with hospitals := [(0, h0), (1, h2)] }

def env3 : Env := { env1 with cfg := cfg3, geo := geo3 }

def em3 : Emergency := { loc := locA, severity := 1, tappearance := 0 }

def s3c : CityState :=
  { reset env3 env3.cfg.hospitals 0 1000000 npZero pyZero with
      active_emergencies := [[], [em3]] }

/-- C5/C6 scenario: a configuration whose hospitals dict has no entry for the
null id 0 (ids are 1 and 2, as in the specification's own example). -/
def cfg5 : Config := { cfg1 with hospitals := [(1, h1), (2, h2)] }

def env5 : Env := { env1 with cfg := cfg5 }

def s5 : CityState := reset env5 env5.cfg.hospitals 0 1000000 npZero pyZero

/-- C4 scenario: step length 10000 s (one step exceeds the 9000 s traffic
refresh period), hospitals 25 km apart, reposition then wait. -/
def cfg4 : Config :=
  { cfg1 with hospitals :=
      [(0, h0), (1, { h1 with available_amb := 1 }), (2, { h2 with loc := locB })] }

def env4 : Env := { env1 with cfg := cfg4, geo := geo4, time_step_seconds := 10000 }

def c4acts : List Action := [actMove12, act0]

def c4runA : List (Except PyErr (Obs × ℤ × Bool)) × CityState :=
  runSteps env4 (reset env4 env4.cfg.hospitals 0 1000000 npZero py10) c4acts

def c4runB : List (Except PyErr (Obs × ℤ × Bool)) × CityState :=
  runSteps env4 (reset env4 env4.cfg.hospitals 0 1000000 npZero py90) c4acts

/-- Traffic-manager instance for the travel-time monotonicity witness. -/
def tmW : TrafficManager := TrafficManager.init 0 [1] 9000 60 100 pyZero

/-!  ## Helper lemmas  -/

theorem update_traffic_noop (tm : TrafficManager) (time : ℚ)
    (h : ¬ tm.update_period < time - tm.last_update) :
    tm.update_traffic time = tm := by
  simp [TrafficManager.update_traffic, h]

theorem foldl_update_traffic_noop (tm : TrafficManager) (times : List ℚ)
    (h : ∀ t ∈ times, ¬ tm.update_period < t - tm.last_update) :
    times.foldl TrafficManager.update_traffic tm = tm := by
  induction times with
  | nil => rfl
  | cons t ts ih =>
    simp only [List.foldl_cons]
    rw [update_traffic_noop tm t (h t (by simp))]
    exact ih (fun u hu => h u (by simp [hu]))

theorem except_eq_ok_of_toOption {ε α : Type} (r : Except ε α) (x : α)
    (h : r.toOption = some x) : r = .ok x := by
  cases r with
  | ok v => simp only [Except.toOption, Option.some.injEq] at h; rw [h]
  | error e => simp [Except.toOption] at h

theorem alookup_map_dist_zero (d : ℤ) (ds : List ℤ) (hd : d ∈ ds) :
    alookup (DKey.dist d) (ds.map (fun x => (DKey.dist x, (0 : ℚ)))) = some 0 := by
  induction ds with
  | nil => cases hd
  | cons a as ih =>
    simp only [List.map_cons, alookup]
    by_cases hda : a = d
    · subst hda; simp
    · rw [if_neg (by simp [hda])]
      rcases List.mem_cons.mp hd with h1 | h2
      · exact absurd h1.symm hda
      · exact ih h2

theorem dispState_ok_proj (env : Env) (s : CityState) (a b : Loc) (t : ℚ) (s2 : CityState)
    (h : dispState env s a b = .ok (t, s2)) :
    s2.time = s.time ∧ s2.time_start = s.time_start ∧ s2.time_end = s.time_end ∧
    s2.hospitals = s.hospitals ∧ s2.active_emergencies = s.active_emergencies ∧
    s2.outgoing_ambulances = s.outgoing_ambulances ∧
    s2.incoming_ambulances = s.incoming_ambulances ∧ s2.npRng = s.npRng := by
  unfold dispState at h
  split at h
  · exact absurd h (by simp)
  · split at h
    · exact absurd h (by simp)
    · simp only [Except.ok.injEq, Prod.mk.injEq] at h
      obtain ⟨-, hs⟩ := h
      subst hs
      exact ⟨rfl, rfl, rfl, rfl, rfl, rfl, rfl, rfl⟩

theorem applyTier_resState_time (env : Env) (sev : ℕ) (st en : ℤ) (s : CityState) :
    (resState (applyTier env sev st en s)).time = s.time := by
  unfold applyTier
  simp only []
  split
  · rfl
  · split
    · rfl
    · split
      · split
        · rfl
        · split
          · rfl
          · next tth s2 heq =>
            have h := (dispState_ok_proj _ _ _ _ _ _ heq).1
            simpa [resState] using h
      · split
        · rfl
        · split
          · rfl
          · split
            · rfl
            · split
              · rfl
              · next ttobj s2 heq =>
                have h2 := (dispState_ok_proj _ _ _ _ _ _ heq).1
                split
                · simpa [resState] using h2
                · next tt2 s3 heq2 =>
                  have h3 := (dispState_ok_proj _ _ _ _ _ _ heq2).1
                  simp only [resState]
                  rw [h3, h2]

theorem applyTiersAux_resState_time (env : Env) (a : Action) :
    ∀ (sevs : List ℕ) (s : CityState),
      (resState (applyTiersAux env a sevs s)).time = s.time := by
  intro sevs
  induction sevs with
  | nil => intro s; rfl
  | cons sev rest ih =>
    intro s
    show (resState (match applyTier env sev (a.starts sev) (a.ends sev) s with
      | .error es => .error es
      | .ok s2 => applyTiersAux env a rest s2)).time = s.time
    have ht := applyTier_resState_time env sev (a.starts sev) (a.ends sev) s
    cases h : applyTier env sev (a.starts sev) (a.ends sev) s with
    | error es =>
      rw [h] at ht
      exact ht
    | ok s2 =>
      rw [h] at ht
      simp only [resState] at ht
      rw [ih s2, ht]

theorem applyTiers_resState_time (env : Env) (a : Action) (s : CityState) :
    (resState (applyTiers env a s)).time = s.time :=
  applyTiersAux_resState_time env a _ s

theorem stepGen_time (env : Env) (s : CityState) :
    (stepGen env s).time = s.time + env.time_step_seconds := rfl

theorem step_time (env : Env) (s : CityState) (a : Action) :
    (step env s a).2.time = s.time + env.time_step_seconds := by
  unfold step
  simp only []
  generalize hg : stepGen env s = s3
  have ht3 : s3.time = s.time + env.time_step_seconds := by
    rw [← hg]; exact stepGen_time env s
  split
  · exact ht3
  · next heq0 =>
    have hat := applyTiers_resState_time env a
      { s3 with
          hospitals := (resolveIncoming s3.time s3.hospitals
            (s3.incoming_ambulances ++ (splitOutgoing s3.time s3.outgoing_ambulances).2.1)).1
          outgoing_ambulances := (splitOutgoing s3.time s3.outgoing_ambulances).1 ++
            (resolveIncoming s3.time s3.hospitals
              (s3.incoming_ambulances ++
                (splitOutgoing s3.time s3.outgoing_ambulances).2.1)).2.1
          incoming_ambulances := [] }
    split
    · next e s5 heq =>
      rw [heq] at hat
      simp only [resState] at hat
      rw [hat]
      exact ht3
    · next s5 heq =>
      rw [heq] at hat
      simp only [resState] at hat
      rw [hat]
      exact ht3

theorem alookup_mem {α β : Type} [DecidableEq α] (k : α) (m : List (α × β)) (v : β)
    (h : alookup k m = some v) : (k, v) ∈ m := by
  induction m with
  | nil => simp [alookup] at h
  | cons kv rest ih =>
    unfold alookup at h
    by_cases hk : kv.1 = k
    · rw [if_pos hk] at h
      obtain hv := Option.some.inj h
      subst hk
      subst hv
      simp
    · rw [if_neg hk] at h
      exact List.mem_cons_of_mem kv (ih h)

theorem mem_aset {α β : Type} [DecidableEq α] (k : α) (v : β) (m : List (α × β))
    (kv : α × β) (h : kv ∈ aset k v m) : kv = (k, v) ∨ kv ∈ m := by
  induction m with
  | nil => simpa [aset] using h
  | cons kv0 rest ih =>
    unfold aset at h
    by_cases hk : kv0.1 = k
    · rw [if_pos hk] at h
      rcases List.mem_cons.mp h with h1 | h2
      · exact Or.inl h1
      · exact Or.inr (List.mem_cons_of_mem kv0 h2)
    · rw [if_neg hk] at h
      rcases List.mem_cons.mp h with h1 | h2
      · exact Or.inr (h1 ▸ List.mem_cons_self kv0 rest)
      · rcases ih h2 with h3 | h4
        · exact Or.inl h3
        · exact Or.inr (List.mem_cons_of_mem kv0 h4)

theorem sumAvail_aset (k : ℤ) (hv h2 : Hospital) (hs : List (ℤ × Hospital))
    (h : alookup k hs = some hv) :
    sumAvail (aset k h2 hs) = sumAvail hs - hv.available_amb + h2.available_amb := by
  induction hs with
  | nil => simp [alookup] at h
  | cons kv rest ih =>
    unfold alookup at h
    by_cases hk : kv.1 = k
    · rw [if_pos hk] at h
      obtain h' := Option.some.inj h
      unfold aset
      rw [if_pos hk]
      simp only [sumAvail, List.map_cons, List.sum_cons, h']
      ring
    · rw [if_neg hk] at h
      unfold aset
      rw [if_neg hk]
      simp only [sumAvail, List.map_cons, List.sum_cons] at ih ⊢
      rw [ih h]
      ring

theorem tdSeconds_neg100 : tdSeconds (-100) = 86300 := by
  unfold tdSeconds
  have h1 : ⌊(-100 : ℚ) / 86400⌋ = -1 := by
    rw [Int.floor_eq_iff] <;> norm_num
  rw [h1]
  have h2 : ((-100 : ℚ) - 86400 * (-1 : ℤ)) = ((86300 : ℤ) : ℚ) := by push_cast; norm_num
  rw [h2, Int.floor_intCast]

theorem splitOutgoing_len (time : ℚ) (l : List MovingAmb) :
    (splitOutgoing time l).1.length + (splitOutgoing time l).2.1.length = l.length := by
  induction l with
  | nil => rfl
  | cons amb rest ih =>
    rcases hs : splitOutgoing time rest with ⟨keep, moved, rew⟩
    rw [hs] at ih
    unfold splitOutgoing
    rw [hs]
    simp only []
    by_cases hc : amb.tobjective ≤ time
    · rw [if_pos hc]
      simp only [List.length_cons] at ih ⊢
      omega
    · rw [if_neg hc]
      simp only [List.length_cons] at ih ⊢
      omega

theorem resolveIncoming_ok_sum (time : ℚ) :
    ∀ (l : List MovingAmb) (hs : List (ℤ × Hospital)),
    (resolveIncoming time hs l).2.2 = none →
    sumAvail (resolveIncoming time hs l).1 + ((resolveIncoming time hs l).2.1.length : ℤ)
      = sumAvail hs + (l.length : ℤ) := by
  intro l
  induction l with
  | nil => intro hs _; simp [resolveIncoming]
  | cons amb rest ih =>
    intro hs hnone
    unfold resolveIncoming at hnone ⊢
    by_cases hc : amb.thospital ≤ time
    · rw [if_pos hc] at hnone ⊢
      cases hl : alookup amb.destination hs with
      | none => rw [hl] at hnone; simp at hnone
      | some hh =>
        rw [hl] at hnone
        have hnone2 : (resolveIncoming time
            (aset amb.destination { hh with available_amb := hh.available_amb + 1 } hs)
            rest).2.2 = none := hnone
        have hrec := ih
          (aset amb.destination { hh with available_amb := hh.available_amb + 1 } hs) hnone2
        show sumAvail (resolveIncoming time
            (aset amb.destination { hh with available_amb := hh.available_amb + 1 } hs)
            rest).1 +
          ((resolveIncoming time
            (aset amb.destination { hh with available_amb := hh.available_amb + 1 } hs)
            rest).2.1.length : ℤ) = sumAvail hs + ((amb :: rest).length : ℤ)
        rw [hrec, sumAvail_aset _ hh _ _ hl]
        push_cast [List.length_cons]
        ring
    · rw [if_neg hc] at hnone ⊢
      rcases hres : resolveIncoming time hs rest with ⟨hs2, out, e⟩
      rw [hres] at hnone
      have hnone2 : e = none := hnone
      have hrec0 := ih hs (by rw [hres]; exact hnone2)
      rw [hres] at hrec0
      have hrec : sumAvail hs2 + (out.length : ℤ) = sumAvail hs + (rest.length : ℤ) := hrec0
      show sumAvail hs2 + ((amb :: out).length : ℤ) = sumAvail hs + ((amb :: rest).length : ℤ)
      push_cast [List.length_cons] at hrec ⊢
      omega

theorem applyTier_ok_fleet (env : Env) (sev : ℕ) (st en : ℤ) (s s2 : CityState)
    (hok : applyTier env sev st en s = .ok s2) :
    fleetCount s2 = fleetCount s := by
  unfold applyTier at hok
  simp only [] at hok
  split at hok
  · exact absurd hok (by simp)
  · next start_hospital heqs =>
    split at hok
    · exact absurd hok (by simp)
    · next end_hospital heqe =>
      split at hok
      · split at hok
        · obtain rfl := Except.ok.inj hok
          rfl
        · split at hok
          · exact absurd hok (by simp)
          · next tth s2x heq =>
            obtain rfl := (Except.ok.inj hok).symm
            obtain ⟨-, -, -, hH, -, hOut, hInc, -⟩ := dispState_ok_proj _ _ _ _ _ _ heq
            unfold fleetCount
            simp only [List.length_append, List.length_cons, List.length_nil]
            rw [hH, hOut, hInc]
            show sumAvail (aset st _ s.hospitals) +
              (s.outgoing_ambulances.length : ℤ) + ((s.incoming_ambulances.length + (0 + 1) : ℕ) : ℤ)
                = _
            rw [sumAvail_aset st start_hospital _ _ heqs]
            push_cast
            ring
      · split at hok
        · obtain rfl := Except.ok.inj hok
          rfl
        · split at hok
          · obtain rfl := Except.ok.inj hok
            rfl
          · next emergency qrest hq =>
            split at hok
            · obtain rfl := Except.ok.inj hok
              rfl
            · split at hok
              · exact absurd hok (by simp)
              · next ttobj s2x heq =>
                split at hok
                · exact absurd hok (by simp)
                · next tt2 s3x heq2 =>
                  obtain rfl := (Except.ok.inj hok).symm
                  obtain ⟨-, -, -, hH, -, hOut, hInc, -⟩ := dispState_ok_proj _ _ _ _ _ _ heq
                  obtain ⟨-, -, -, hH2, -, hOut2, hInc2, -⟩ := dispState_ok_proj _ _ _ _ _ _ heq2
                  unfold fleetCount
                  simp only [List.length_append, List.length_cons, List.length_nil]
                  rw [hH2, hOut2, hInc2, hH, hOut, hInc]
                  show sumAvail (aset st _ s.hospitals) +
                    ((s.outgoing_ambulances.length + (0 + 1) : ℕ) : ℤ) +
                    (s.incoming_ambulances.length : ℤ) = _
                  rw [sumAvail_aset st start_hospital _ _ heqs]
                  push_cast
                  ring

theorem applyTiersAux_ok_fleet (env : Env) (a : Action) :
    ∀ (sevs : List ℕ) (s s2 : CityState),
      applyTiersAux env a sevs s = .ok s2 → fleetCount s2 = fleetCount s := by
  intro sevs
  induction sevs with
  | nil =>
    intro s s2 h
    obtain rfl := Except.ok.inj h
    rfl
  | cons sev rest ih =>
    intro s s2 h
    unfold applyTiersAux at h
    cases ht : applyTier env sev (a.starts sev) (a.ends sev) s with
    | error es => rw [ht] at h; exact absurd h (by simp)
    | ok sx =>
      rw [ht] at h
      simp only [] at h
      rw [ih sx s2 h, applyTier_ok_fleet env sev _ _ s sx ht]

theorem applyTiers_ok_fleet (env : Env) (a : Action) (s s2 : CityState)
    (h : applyTiers env a s = .ok s2) : fleetCount s2 = fleetCount s :=
  applyTiersAux_ok_fleet env a _ s s2 h

theorem step_ok_fleet (env : Env) (s : CityState) (a : Action)
    (v : Obs × ℤ × Bool) (s2 : CityState) (h : step env s a = (.ok v, s2)) :
    fleetCount s2 = fleetCount s := by
  unfold step at h
  simp only [] at h
  split at h
  · exact absurd (congrArg Prod.fst h) (by simp)
  · next heqnone =>
    split at h
    · exact absurd (congrArg Prod.fst h) (by simp)
    · next s5 happ =>
      obtain rfl : s5 = s2 := congrArg Prod.snd h
      have h4 := applyTiers_ok_fleet env a _ _ happ
      have h5 := resolveIncoming_ok_sum (stepGen env s).time
        ((stepGen env s).incoming_ambulances ++
          (splitOutgoing (stepGen env s).time (stepGen env s).outgoing_ambulances).2.1)
        (stepGen env s).hospitals heqnone
      have h6 := splitOutgoing_len (stepGen env s).time (stepGen env s).outgoing_ambulances
      have hfg : fleetCount (stepGen env s) = fleetCount s := rfl
      unfold fleetCount at h4 hfg ⊢
      simp only [List.length_append, List.length_nil] at h4 h5 h6 hfg ⊢
      push_cast at h4 h5 h6 hfg ⊢
      omega

theorem displacement_time_setRng (tm : TrafficManager) (r : PyRng)
    (dists : List (DKey × ℚ)) (time : ℚ)
    (h : ¬ tm.update_period < time - tm.last_update) :
    TrafficManager.displacement_time { tm with rng := r } dists time
      = (TrafficManager.displacement_time tm dists time).map
          (fun p => (p.1, { p.2 with rng := r })) := by
  unfold TrafficManager.displacement_time
  rw [update_traffic_noop tm time h, update_traffic_noop { tm with rng := r } time h]
  simp only []
  cases hl : lookupLoads tm.traffic
      ((dists.map Prod.fst).filter (fun k => k ≠ DKey.missing)) with
  | none => simp [hl, Except.map]
  | some other =>
    simp only [hl]
    by_cases hlen : other.length = 0
    · simp [hlen, Except.map]
    · simp only [hlen, if_neg, ite_false]
      cases hl2 : lookupLoads (aset DKey.missing (other.sum / (other.length : ℚ)) tm.traffic)
          (dists.map Prod.fst) with
      | none => simp [hl2, Except.map]
      | some loads => simp [hl2, Except.map, TrafficManager.get_speed]

theorem displacement_time_ok_tm (tm : TrafficManager) (dists : List (DKey × ℚ))
    (time t : ℚ) (tm2 : TrafficManager)
    (h : ¬ tm.update_period < time - tm.last_update)
    (hok : tm.displacement_time dists time = .ok (t, tm2)) :
    tm2.update_period = tm.update_period ∧ tm2.last_update = tm.last_update := by
  unfold TrafficManager.displacement_time at hok
  rw [update_traffic_noop tm time h] at hok
  simp only [] at hok
  split at hok
  · exact absurd hok (by simp)
  · split at hok
    · exact absurd hok (by simp)
    · split at hok
      · exact absurd hok (by simp)
      · simp only [Except.ok.injEq, Prod.mk.injEq] at hok
        obtain ⟨-, hs⟩ := hok
        subst hs
        exact ⟨rfl, rfl⟩

theorem dispState_setPy (env : Env) (s : CityState) (r : PyRng) (a b : Loc)
    (h : ¬ s.tm.update_period < s.time - s.tm.last_update) :
    dispState env (setPy s r) a b
      = (dispState env s a b).map (fun p => (p.1, setPy p.2 r)) := by
  unfold dispState
  simp only [setPy]
  cases hg : get_segments_per_district env.geo a.district_code (a.x, a.y)
      b.district_code (b.x, b.y) with
  | error e => simp [hg, Except.map]
  | ok segs =>
    simp only [hg]
    have hd := displacement_time_setRng s.tm r segs s.time h
    rw [hd]
    cases hdt : s.tm.displacement_time segs s.time with
    | error e => simp [Except.map]
    | ok p => simp [Except.map]

theorem dispState_ok_tm (env : Env) (s : CityState) (a b : Loc) (t : ℚ) (s2 : CityState)
    (h : ¬ s.tm.update_period < s.time - s.tm.last_update)
    (hok : dispState env s a b = .ok (t, s2)) :
    s2.tm.update_period = s.tm.update_period ∧ s2.tm.last_update = s.tm.last_update := by
  unfold dispState at hok
  split at hok
  · exact absurd hok (by simp)
  · next segs hseg =>
    split at hok
    · exact absurd hok (by simp)
    · next t2 tm2 hdt =>
      simp only [Except.ok.injEq, Prod.mk.injEq] at hok
      obtain ⟨-, hs⟩ := hok
      subst hs
      exact displacement_time_ok_tm s.tm segs s.time t2 tm2 h hdt

theorem applyTier_ok_tm (env : Env) (sev : ℕ) (st en : ℤ) (s s2 : CityState)
    (h : ¬ s.tm.update_period < s.time - s.tm.last_update)
    (hok : applyTier env sev st en s = .ok s2) :
    s2.time = s.time ∧ s2.tm.update_period = s.tm.update_period ∧
      s2.tm.last_update = s.tm.last_update := by
  unfold applyTier at hok
  simp only [] at hok
  split at hok
  · exact absurd hok (by simp)
  · next start_hospital heqs =>
    split at hok
    · exact absurd hok (by simp)
    · next end_hospital heqe =>
      split at hok
      · split at hok
        · obtain rfl := Except.ok.inj hok
          exact ⟨rfl, rfl, rfl⟩
        · split at hok
          · exact absurd hok (by simp)
          · next tth s2x heq =>
            obtain rfl := (Except.ok.inj hok).symm
            obtain ⟨ht, -, -, -, -, -, -, -⟩ := dispState_ok_proj _ _ _ _ _ _ heq
            have htm := dispState_ok_tm env _ _ _ _ _ (by exact h) heq
            exact ⟨ht, htm.1, htm.2⟩
      · split at hok
        · obtain rfl := Except.ok.inj hok
          exact ⟨rfl, rfl, rfl⟩
        · split at hok
          · obtain rfl := Except.ok.inj hok
            exact ⟨rfl, rfl, rfl⟩
          · next emergency qrest hq =>
            split at hok
            · obtain rfl := Except.ok.inj hok
              exact ⟨rfl, rfl, rfl⟩
            · split at hok
              · exact absurd hok (by simp)
              · next ttobj s2x heq =>
                split at hok
                · exact absurd hok (by simp)
                · next tt2 s3x heq2 =>
                  obtain rfl := (Except.ok.inj hok).symm
                  obtain ⟨ht, -, -, -, -, -, -, -⟩ := dispState_ok_proj _ _ _ _ _ _ heq
                  obtain ⟨ht2, -, -, -, -, -, -, -⟩ := dispState_ok_proj _ _ _ _ _ _ heq2
                  have htm := dispState_ok_tm env _ _ _ _ _ (by exact h) heq
                  have hc2 : ¬ s2x.tm.update_period < s2x.time - s2x.tm.last_update := by
                    rw [htm.1, htm.2, ht]
                    exact h
                  have htm2 := dispState_ok_tm env _ _ _ _ _ hc2 heq2
                  refine ⟨?_, ?_, ?_⟩
                  · rw [ht2, ht]
                  · rw [htm2.1, htm.1]
                  · rw [htm2.2, htm.2]

theorem applyTiersAux_ok_tm (env : Env) (a : Action) :
    ∀ (sevs : List ℕ) (s s2 : CityState),
      (¬ s.tm.update_period < s.time - s.tm.last_update) →
      applyTiersAux env a sevs s = .ok s2 →
      s2.time = s.time ∧ s2.tm.update_period = s.tm.update_period ∧
        s2.tm.last_update = s.tm.last_update := by
  intro sevs
  induction sevs with
  | nil =>
    intro s s2 _ hok
    obtain rfl := Except.ok.inj hok
    exact ⟨rfl, rfl, rfl⟩
  | cons sev rest ih =>
    intro s s2 h hok
    unfold applyTiersAux at hok
    cases ht : applyTier env sev (a.starts sev) (a.ends sev) s with
    | error es => rw [ht] at hok; exact absurd hok (by simp)
    | ok sx =>
      rw [ht] at hok
      simp only [] at hok
      have h1 := applyTier_ok_tm env sev _ _ s sx h ht
      have h2 : ¬ sx.tm.update_period < sx.time - sx.tm.last_update := by
        rw [h1.1, h1.2.1, h1.2.2]
        exact h
      have h3 := ih sx s2 h2 hok
      exact ⟨h3.1.trans h1.1, h3.2.1.trans h1.2.1, h3.2.2.trans h1.2.2⟩

theorem applyTier_setPy (env : Env) (sev : ℕ) (st en : ℤ) (s : CityState) (r : PyRng)
    (h : ¬ s.tm.update_period < s.time - s.tm.last_update) :
    applyTier env sev st en (setPy s r)
      = exPyMap (fun x => setPy x r) (applyTier env sev st en s) := by
  unfold applyTier
  simp only [setPy]
  cases h1 : alookup st s.hospitals with
  | none => simp [exPyMap, setPy]
  | some sh =>
    cases h2 : alookup en s.hospitals with
    | none => simp [exPyMap, setPy]
    | some eh =>
      by_cases hs0 : sev = 0
      · subst hs0
        simp only [if_pos rfl]
        by_cases hnull : en = 0 ∨ st = 0
        · simp [hnull, exPyMap, setPy]
        · simp only [hnull, if_false]
          have hds := dispState_setPy env
            { s with
                hospitals := aset st
                  ({ sh with available_amb := sh.available_amb - 1 }) s.hospitals }
            r sh.loc eh.loc h
          simp only [setPy] at hds
          rw [hds]
          cases hdd : dispState env
              { s with
                  hospitals := aset st
                    ({ sh with available_amb := sh.available_amb - 1 }) s.hospitals }
              sh.loc eh.loc with
          | error e => simp [Except.map, exPyMap, setPy]
          | ok p => simp [Except.map, exPyMap, setPy]
      · simp only [hs0, if_false]
        by_cases hst0 : st = 0
        · simp [hst0, exPyMap, setPy]
        · simp only [hst0, if_false]
          cases hq : s.active_emergencies.getD sev [] with
          | nil => simp [exPyMap, setPy]
          | cons emergency qrest =>
            by_cases hav : sh.available_amb = 0
            · simp [hav, exPyMap, setPy]
            · simp only [hav, if_false]
              have hds := dispState_setPy env
                { s with
                    hospitals := aset st
                      ({ sh with available_amb := sh.available_amb - 1 }) s.hospitals
                    active_emergencies := s.active_emergencies.set sev qrest }
                r sh.loc emergency.loc h
              simp only [setPy] at hds
              rw [hds]
              cases hdd : dispState env
                  { s with
                      hospitals := aset st
                        ({ sh with available_amb := sh.available_amb - 1 }) s.hospitals
                      active_emergencies := s.active_emergencies.set sev qrest }
                  sh.loc emergency.loc with
              | error e => simp [Except.map, exPyMap, setPy]
              | ok p =>
                obtain ⟨ttobj, s2x⟩ := p
                simp only [Except.map]
                have hcond := dispState_ok_tm env _ _ _ _ _ (by exact h) hdd
                obtain ⟨ht, -, -, -, -, -, -, -⟩ := dispState_ok_proj _ _ _ _ _ _ hdd
                have hc2 : ¬ s2x.tm.update_period < s2x.time - s2x.tm.last_update := by
                  rw [hcond.1, hcond.2, ht]
                  exact h
                have hds2 := dispState_setPy env s2x r emergency.loc
                  (if en = 0 then (st, sh) else (en, eh)).2.loc hc2
                simp only [setPy] at hds2
                rw [hds2]
                cases hdd2 : dispState env s2x emergency.loc
                    (if en = 0 then (st, sh) else (en, eh)).2.loc with
                | error e => simp [Except.map, exPyMap, setPy]
                | ok p2 => simp [Except.map, exPyMap, setPy]

theorem applyTiersAux_setPy (env : Env) (a : Action) :
    ∀ (sevs : List ℕ) (s : CityState) (r : PyRng),
      (¬ s.tm.update_period < s.time - s.tm.last_update) →
      applyTiersAux env a sevs (setPy s r)
        = exPyMap (fun x => setPy x r) (applyTiersAux env a sevs s) := by
  intro sevs
  induction sevs with
  | nil => intro s r _; rfl
  | cons sev rest ih =>
    intro s r h
    unfold applyTiersAux
    rw [applyTier_setPy env sev (a.starts sev) (a.ends sev) s r h]
    cases ht : applyTier env sev (a.starts sev) (a.ends sev) s with
    | error es =>
      obtain ⟨e, sx⟩ := es
      simp [exPyMap]
    | ok sx =>
      simp only [exPyMap]
      have h1 := applyTier_ok_tm env sev _ _ s sx h ht
      have h2 : ¬ sx.tm.update_period < sx.time - sx.tm.last_update := by
        rw [h1.1, h1.2.1, h1.2.2]
        exact h
      exact ih sx r h2

theorem stepGen_setPy (env : Env) (s : CityState) (r : PyRng)
    (h : ¬ s.tm.update_period < (s.time + env.time_step_seconds) - s.tm.last_update) :
    stepGen env (setPy s r) = setPy (stepGen env s) r := by
  unfold stepGen
  simp only [setPy]
  rw [update_traffic_noop s.tm (s.time + env.time_step_seconds) h,
      update_traffic_noop { s.tm with rng := r } (s.time + env.time_step_seconds) h]

theorem stepGen_tm (env : Env) (s : CityState)
    (h : ¬ s.tm.update_period < (s.time + env.time_step_seconds) - s.tm.last_update) :
    (stepGen env s).tm = s.tm := by
  unfold stepGen
  simp only []
  rw [update_traffic_noop s.tm (s.time + env.time_step_seconds) h]

theorem get_obs_setPy (env : Env) (s : CityState) (r : PyRng) :
    get_obs env (setPy s r) = get_obs env s := rfl

theorem step_setPy (env : Env) (s : CityState) (a : Action) (r : PyRng)
    (h : ¬ s.tm.update_period < (s.time + env.time_step_seconds) - s.tm.last_update) :
    step env (setPy s r) a = ((step env s a).1, setPy (step env s a).2 r) := by
  have htm3 := stepGen_tm env s h
  have ht3 := stepGen_time env s
  unfold step
  simp only []
  rw [stepGen_setPy env s r h]
  generalize hS : stepGen env s = S3 at htm3 ht3
  simp only [setPy]
  split
  · simp [setPy]
  · next heqnone =>
    have hc4 : ¬ S3.tm.update_period < S3.time - S3.tm.last_update := by
      rw [htm3, ht3]
      exact h
    have haux := applyTiersAux_setPy env a
      (List.range
        ({ S3 with
            hospitals := (resolveIncoming S3.time S3.hospitals
              (S3.incoming_ambulances ++
                (splitOutgoing S3.time S3.outgoing_ambulances).2.1)).1
            outgoing_ambulances := (splitOutgoing S3.time S3.outgoing_ambulances).1 ++
              (resolveIncoming S3.time S3.hospitals
                (S3.incoming_ambulances ++
                  (splitOutgoing S3.time S3.outgoing_ambulances).2.1)).2.1
            incoming_ambulances := ([] : List MovingAmb) } : CityState).active_emergencies.length)
      { S3 with
          hospitals := (resolveIncoming S3.time S3.hospitals
            (S3.incoming_ambulances ++
              (splitOutgoing S3.time S3.outgoing_ambulances).2.1)).1
          outgoing_ambulances := (splitOutgoing S3.time S3.outgoing_ambulances).1 ++
            (resolveIncoming S3.time S3.hospitals
              (S3.incoming_ambulances ++
                (splitOutgoing S3.time S3.outgoing_ambulances).2.1)).2.1
          incoming_ambulances := ([] : List MovingAmb) }
      r (by exact hc4)
    simp only [setPy] at haux
    unfold applyTiers
    simp only []
    rw [haux]
    cases hres : applyTiersAux env a
        (List.range
          ({ S3 with
              hospitals := (resolveIncoming S3.time S3.hospitals
                (S3.incoming_ambulances ++
                  (splitOutgoing S3.time S3.outgoing_ambulances).2.1)).1
              outgoing_ambulances := (splitOutgoing S3.time S3.outgoing_ambulances).1 ++
                (resolveIncoming S3.time S3.hospitals
                  (S3.incoming_ambulances ++
                    (splitOutgoing S3.time S3.outgoing_ambulances).2.1)).2.1
              incoming_ambulances := ([] : List MovingAmb) } : CityState).active_emergencies.length)
        { S3 with
            hospitals := (resolveIncoming S3.time S3.hospitals
              (S3.incoming_ambulances ++
                (splitOutgoing S3.time S3.outgoing_ambulances).2.1)).1
            outgoing_ambulances := (splitOutgoing S3.time S3.outgoing_ambulances).1 ++
              (resolveIncoming S3.time S3.hospitals
                (S3.incoming_ambulances ++
                  (splitOutgoing S3.time S3.outgoing_ambulances).2.1)).2.1
            incoming_ambulances := ([] : List MovingAmb) } with
    | error es =>
      obtain ⟨e, s5⟩ := es
      simp [exPyMap, setPy]
    | ok s5 =>
      simp only [exPyMap]
      rw [show (get_obs env
        { s5 with tm := { s5.tm with rng := r } }) = get_obs env s5 from rfl]

theorem step_ok_tm (env : Env) (s : CityState) (a : Action)
    (v : Obs × ℤ × Bool) (s2 : CityState)
    (h : ¬ s.tm.update_period < (s.time + env.time_step_seconds) - s.tm.last_update)
    (hok : step env s a = (.ok v, s2)) :
    s2.tm.update_period = s.tm.update_period ∧ s2.tm.last_update = s.tm.last_update := by
  have htm3 := stepGen_tm env s h
  have ht3 := stepGen_time env s
  unfold step at hok
  simp only [] at hok
  split at hok
  · exact absurd (congrArg Prod.fst hok) (by simp)
  · split at hok
    · exact absurd (congrArg Prod.fst hok) (by simp)
    · next s5 happ =>
      obtain rfl : s5 = s2 := congrArg Prod.snd hok
      have hc4 : ¬ (stepGen env s).tm.update_period
          < (stepGen env s).time - (stepGen env s).tm.last_update := by
        rw [htm3, ht3]
        exact h
      have htms := applyTiersAux_ok_tm env a _ _ _ (by exact hc4) happ
      constructor
      · exact htms.2.1.trans (congrArg TrafficManager.update_period htm3)
      · exact htms.2.2.trans (congrArg TrafficManager.last_update htm3)

theorem runSteps_setPy (env : Env) :
    ∀ (acts : List Action) (s : CityState) (r : PyRng),
      0 ≤ env.time_step_seconds →
      s.time - s.tm.last_update + acts.length * env.time_step_seconds ≤ s.tm.update_period →
      runSteps env (setPy s r) acts
        = ((runSteps env s acts).1, setPy (runSteps env s acts).2 r) := by
  intro acts
  induction acts with
  | nil => intro s r _ _; rfl
  | cons a rest ih =>
    intro s r hq hbound
    have hstep : ¬ s.tm.update_period < (s.time + env.time_step_seconds) - s.tm.last_update := by
      intro hlt
      have h0 : (0 : ℚ) ≤ (rest.length : ℚ) * env.time_step_seconds :=
        mul_nonneg (by positivity) hq
      push_cast [List.length_cons] at hbound
      linarith
    unfold runSteps
    rw [step_setPy env s a r hstep]
    cases hst : step env s a with
    | mk o s2 =>
      cases o with
      | error e => simp [hst]
      | ok v =>
        have ht := step_time env s a
        rw [hst] at ht
        have htm := step_ok_tm env s a v s2 hstep hst
        have hb2 : s2.time - s2.tm.last_update + rest.length * env.time_step_seconds
            ≤ s2.tm.update_period := by
          rw [ht, htm.1, htm.2]
          push_cast [List.length_cons] at hbound
          linarith
        have hrec := ih s2 r hq hb2
        simp [hst, hrec]

theorem alookup_aset_self {α β : Type} [DecidableEq α] (k : α) (v : β) (m : List (α × β)) :
    alookup k (aset k v m) = some v := by
  induction m with
  | nil => simp [aset, alookup]
  | cons kv rest ih =>
    unfold aset
    by_cases hk : kv.1 = k
    · rw [if_pos hk]
      simp [alookup]
    · rw [if_neg hk]
      unfold alookup
      rw [if_neg hk]
      exact ih

theorem alookup_aset_ne {α β : Type} [DecidableEq α] (k k2 : α) (v : β) (m : List (α × β))
    (hne : k2 ≠ k) : alookup k2 (aset k v m) = alookup k2 m := by
  induction m with
  | nil =>
    show alookup k2 [(k, v)] = none
    unfold alookup
    rw [if_neg (fun h : k = k2 => hne h.symm)]
    rfl
  | cons kv rest ih =>
    unfold aset
    by_cases hk : kv.1 = k
    · rw [if_pos hk]
      unfold alookup
      rw [if_neg (fun h : k = k2 => hne h.symm), if_neg (by rw [hk]; exact fun h => hne h.symm)]
    · rw [if_neg hk]
      unfold alookup
      by_cases hk2 : kv.1 = k2
      · rw [if_pos hk2, if_pos hk2]
      · rw [if_neg hk2, if_neg hk2]
        exact ih

theorem lookupLoads_length (tr : List (DKey × ℚ)) :
    ∀ (ks : List DKey) (ls : List ℚ), lookupLoads tr ks = some ls → ls.length = ks.length := by
  intro ks
  induction ks with
  | nil =>
    intro ls h
    obtain rfl := Option.some.inj h
    rfl
  | cons k ks2 ih =>
    intro ls h
    unfold lookupLoads at h
    split at h
    · exact absurd h (by simp)
    · split at h
      · exact absurd h (by simp)
      · next v hv vs hvs =>
        obtain rfl := (Option.some.inj h).symm
        simp [ih vs hvs]

theorem lookupLoads_append (tr : List (DKey × ℚ)) :
    ∀ (ks1 ks2 : List DKey) (l1 l2 : List ℚ),
      lookupLoads tr ks1 = some l1 → lookupLoads tr ks2 = some l2 →
      lookupLoads tr (ks1 ++ ks2) = some (l1 ++ l2) := by
  intro ks1
  induction ks1 with
  | nil =>
    intro ks2 l1 l2 h1 h2
    obtain rfl := (Option.some.inj h1).symm
    simpa using h2
  | cons k ks ih =>
    intro ks2 l1 l2 h1 h2
    unfold lookupLoads at h1
    split at h1
    · exact absurd h1 (by simp)
    · next v hv =>
      split at h1
      · exact absurd h1 (by simp)
      · next vs hvs =>
        obtain rfl := (Option.some.inj h1).symm
        show lookupLoads tr (k :: (ks ++ ks2)) = some ((v :: vs) ++ l2)
        unfold lookupLoads
        rw [hv, ih ks2 vs l2 hvs h2]
        rfl

theorem lookupLoads_aset_missing (tr : List (DKey × ℚ)) (v : ℚ) :
    ∀ (ks : List DKey), (∀ k ∈ ks, k ≠ DKey.missing) →
      lookupLoads (aset DKey.missing v tr) ks = lookupLoads tr ks := by
  intro ks
  induction ks with
  | nil => intro _; rfl
  | cons k ks2 ih =>
    intro hks
    unfold lookupLoads
    rw [alookup_aset_ne DKey.missing k v tr (hks k (by simp)),
        ih (fun x hx => hks x (by simp [hx]))]

theorem zip_append_of_len {α β : Type} :
    ∀ (l1 : List α) (l2 : List β) (r1 : List α) (r2 : List β),
      l1.length = l2.length →
      (l1 ++ r1).zip (l2 ++ r2) = l1.zip l2 ++ r1.zip r2 := by
  intro l1
  induction l1 with
  | nil =>
    intro l2 r1 r2 h
    cases l2 with
    | nil => rfl
    | cons b bs => simp at h
  | cons a as ih =>
    intro l2 r1 r2 h
    cases l2 with
    | nil => simp at h
    | cons b bs =>
      simp only [List.cons_append, List.zip_cons_cons, List.length_cons] at h ⊢
      rw [ih bs r1 r2 (by omega)]

theorem forall2_sum_le (l1 l2 : List ℚ)
    (h : List.Forall₂ (fun x y => x ≤ y) l1 l2) : l1.sum ≤ l2.sum := by
  induction h with
  | nil => exact le_rfl
  | cons hxy _ ih =>
    simp only [List.sum_cons]
    exact add_le_add hxy ih

theorem avg_bounds (L : ℚ) (loads : List ℚ) (hne : loads ≠ [])
    (h0 : ∀ l ∈ loads, 0 ≤ l) (hL : ∀ l ∈ loads, l < L) :
    0 ≤ loads.sum / (loads.length : ℚ) ∧ loads.sum / (loads.length : ℚ) < L := by
  have hlen : 0 < (loads.length : ℚ) := by
    have : loads.length ≠ 0 := fun hz => hne (List.length_eq_zero.mp hz)
    positivity
  constructor
  · exact div_nonneg (List.sum_nonneg h0) (le_of_lt hlen)
  · rw [div_lt_iff hlen]
    cases loads with
    | nil => exact absurd rfl hne
    | cons x xs =>
      have hx : x < L := hL x (by simp)
      have hxs : xs.sum ≤ xs.length • L :=
        List.sum_le_card_nsmul xs L (fun y hy => le_of_lt (hL y (by simp [hy])))
      rw [nsmul_eq_mul] at hxs
      simp only [List.sum_cons, List.length_cons]
      push_cast
      linarith

theorem get_speed_pos (tm : TrafficManager) (l : ℚ)
    (hs : 0 < tm.max_avg_speed) (hm : 0 < tm.max_load) (hl : l < tm.max_load) :
    0 < tm.get_speed l := by
  unfold TrafficManager.get_speed
  have : l / tm.max_load < 1 := (div_lt_one hm).mpr hl
  nlinarith

theorem get_speed_anti (tm : TrafficManager) (l l2 : ℚ)
    (hs : 0 < tm.max_avg_speed) (hm : 0 < tm.max_load) (hle : l ≤ l2) :
    tm.get_speed l2 ≤ tm.get_speed l := by
  unfold TrafficManager.get_speed
  have hdiv : l / tm.max_load ≤ l2 / tm.max_load := (div_le_div_right hm).mpr hle
  have hsub : 1 - l2 / tm.max_load ≤ 1 - l / tm.max_load := by linarith
  exact mul_le_mul_of_nonneg_left hsub (le_of_lt hs)

theorem zip_div_sum_le (tm : TrafficManager)
    (hs : 0 < tm.max_avg_speed) (hm : 0 < tm.max_load) :
    ∀ (ds l1 l2 : List ℚ),
      List.Forall₂ (fun x y => x ≤ y) l1 l2 →
      (∀ d ∈ ds, 0 ≤ d) →
      (∀ y ∈ l2, y < tm.max_load) →
      ((ds.zip l1).map (fun dl => dl.1 / tm.get_speed dl.2)).sum
        ≤ ((ds.zip l2).map (fun dl => dl.1 / tm.get_speed dl.2)).sum := by
  intro ds l1 l2 hrel
  induction hrel generalizing ds with
  | nil => intro _ _; simp
  | @cons x y xs ys hxy hrest ih =>
    intro hd hy
    cases ds with
    | nil => simp
    | cons d ds2 =>
      simp only [List.zip_cons_cons, List.map_cons, List.sum_cons]
      have hspy : 0 < tm.get_speed y := get_speed_pos tm y hs hm (hy y (by simp))
      have hspx : tm.get_speed y ≤ tm.get_speed x := get_speed_anti tm x y hs hm hxy
      have hterm : d / tm.get_speed x ≤ d / tm.get_speed y :=
        div_le_div_of_nonneg_left (hd d (by simp)) hspy hspx
      exact add_le_add hterm (ih ds2 (fun u hu => hd u (by simp [hu]))
        (fun u hu => hy u (by simp [hu])))

theorem forall2_exists_left {α : Type} {R : α → α → Prop} :
    ∀ {l1 l2 : List α}, List.Forall₂ R l1 l2 → ∀ y ∈ l2, ∃ x ∈ l1, R x y := by
  intro l1 l2 h
  induction h with
  | nil => intro y hy; cases hy
  | @cons x y xs ys hxy _ ih =>
    intro z hz
    rcases List.mem_cons.mp hz with h1 | h1
    · exact ⟨x, by simp, h1 ▸ hxy⟩
    · obtain ⟨w, hw, hr⟩ := ih z h1
      exact ⟨w, by simp [hw], hr⟩

theorem displacement_time_eval (tm : TrafficManager) (base : List (DKey × ℚ)) (m : ℚ)
    (time : ℚ) (loads : List ℚ)
    (hnc : ¬ tm.update_period < time - tm.last_update)
    (hkeys : ∀ kv ∈ base, (kv : DKey × ℚ).1 ≠ DKey.missing)
    (hlk : lookupLoads tm.traffic (base.map Prod.fst) = some loads)
    (hne : base ≠ []) :
    tm.displacement_time (base ++ [(DKey.missing, m)]) time
      = .ok (((((base.map Prod.snd).zip loads).map
            (fun dl => dl.1 / tm.get_speed dl.2)).sum
          + m / tm.get_speed (loads.sum / (loads.length : ℚ))) * 3600,
        { tm with traffic := aset DKey.missing (loads.sum / (loads.length : ℚ)) tm.traffic }) := by
  unfold TrafficManager.displacement_time
  rw [update_traffic_noop tm time hnc]
  simp only []
  have hfil : ((base ++ [(DKey.missing, m)]).map Prod.fst).filter (fun k => k ≠ DKey.missing)
      = base.map Prod.fst := by
    rw [List.map_append, List.filter_append]
    have h1 : (base.map Prod.fst).filter (fun k => k ≠ DKey.missing) = base.map Prod.fst := by
      apply List.filter_eq_self.mpr
      intro k hk
      simp only [List.mem_map] at hk
      obtain ⟨kv, hkv, rfl⟩ := hk
      simpa using hkeys kv hkv
    rw [h1]
    simp
  rw [hfil, hlk]
  simp only []
  have hlen : loads.length = base.length := by
    have := lookupLoads_length tm.traffic (base.map Prod.fst) loads hlk
    simpa using this
  have hlen0 : ¬ loads.length = 0 := by
    intro hz
    exact hne (List.length_eq_zero.mp (by omega))
  rw [if_neg hlen0]
  have hlk2 : lookupLoads (aset DKey.missing (loads.sum / (loads.length : ℚ)) tm.traffic)
      ((base ++ [(DKey.missing, m)]).map Prod.fst)
      = some (loads ++ [loads.sum / (loads.length : ℚ)]) := by
    rw [List.map_append]
    apply lookupLoads_append
    · rw [lookupLoads_aset_missing tm.traffic _ (base.map Prod.fst)
        (by intro k hk
            simp only [List.mem_map] at hk
            obtain ⟨kv, hkv, rfl⟩ := hk
            exact hkeys kv hkv)]
      exact hlk
    · show lookupLoads _ [DKey.missing] = some [_]
      unfold lookupLoads
      rw [alookup_aset_self]
      rfl
  rw [hlk2]
  simp only [Except.ok.injEq, Prod.mk.injEq]
  constructor
  · rw [List.map_append,
        zip_append_of_len (base.map Prod.snd) loads _ _ (by simp [hlen]),
        List.map_append, List.sum_append]
    simp
  · trivial

/-!  ## Claim theorems  -/

/-- C8: for every origin point, destination point, origin district code and
destination district code, the values of the mapping returned by
`_get_segments_per_district` (per-district segment lengths together with the
"Missing" residual bucket) sum to the straight-line distance between origin
and destination (`_cartesian origin destination`) — exactly, in this exact
rational model, hence within floating-point tolerance in the source. -/
theorem c8_segments_sum (geo : Geometry) (district_origin : ℤ) (origin : ℚ × ℚ)
    (district_destination : ℤ) (destination : ℚ × ℚ) (m : List (DKey × ℚ))
    (h : get_segments_per_district geo district_origin origin district_destination destination
          = .ok m) :
    (m.map Prod.snd).sum = cartesian geo.sqrtFn [origin, destination] := by
  unfold get_segments_per_district at h
  simp only [] at h
  split at h
  · exact absurd h (by simp)
  · split at h
    · exact absurd h (by simp)
    · simp only [Except.ok.injEq] at h
      subst h
      simp [List.map_append, List.sum_append, List.map_map, Function.comp]

/-- Witness for C8 at a concrete route (origin (0,0), destination (3,4),
both in district 1, no boundary crossings). -/
theorem c8_segments_sum_witness :
    get_segments_per_district geo4 1 (0, 0) 1 (3, 4)
        = .ok [(DKey.dist 1, 25), (DKey.missing, 0)]
    ∧ (([(DKey.dist 1, 25), (DKey.missing, 0)].map Prod.snd).sum
        = cartesian geo4.sqrtFn [(0, 0), (3, 4)]) := by
  have h : get_segments_per_district geo4 1 (0, 0) 1 (3, 4)
      = .ok [(DKey.dist 1, 25), (DKey.missing, 0)] := by
    norm_num [get_segments_per_district, alookup, aset, cartesian, cartPairs, geo4]
  exact ⟨h, c8_segments_sum geo4 1 (0, 0) 1 (3, 4) _ h⟩

/-- C10: immediately after reset every district's traffic load is 0 and stays
0 under any sequence of `update_traffic` calls whose times do not exceed the
reset time by strictly more than the default update period of 9000 seconds;
with load 0 the speed `_get_speed` yields is exactly `max_avg_speed`. -/
theorem c10_traffic_zero_until_period (env : Env) (t0 t1 : ℚ) (np : NpRng) (py : PyRng)
    (times : List ℚ) (h : ∀ t ∈ times, t ≤ t0 + 9000) :
    (trafficAfter env t0 t1 np py times).traffic
        = env.cfg.districts.map (fun d => (DKey.dist d, 0))
    ∧ (∀ d ∈ env.cfg.districts,
        alookup (DKey.dist d) (trafficAfter env t0 t1 np py times).traffic = some 0)
    ∧ (trafficAfter env t0 t1 np py times).get_speed 0
        = (trafficAfter env t0 t1 np py times).max_avg_speed := by
  have hfold : trafficAfter env t0 t1 np py times
      = (reset env env.cfg.hospitals t0 t1 np py).tm := by
    apply foldl_update_traffic_noop
    intro t ht
    show ¬ ((9000 : ℚ) < t - t0)
    have := h t ht
    intro hlt
    linarith
  constructor
  · rw [hfold]; rfl
  constructor
  · intro d hd
    rw [hfold]
    exact alookup_map_dist_zero d _ hd
  · rw [hfold]
    show (60 : ℚ) * (1 - 0 / 100) = 60
    norm_num

/-- C2 (counterexample): conservation fails across `reset`.  `_configure`
sets `self.hospitals = config["hospitals"]` and `self.config = config`, so
reset's restore loop writes each availability the value it just read from
the same dict entry and availabilities are not restored.  Dispatching the
single configured ambulance (tier-0 reposition from hospital 2 to hospital 1)
and then resetting discards the in-flight ambulance while keeping the
decremented availability: the reachable post-reset state counts 0 ambulances
(available plus in flight) against a configured fleet of 1. -/
theorem c2_counterexample_reset_leak :
    Reachable env1 c2r ∧ fleetCount c2r = 0 ∧ fleetSize env1 = 1 := by
  refine ⟨?_, ?_, ?_⟩
  · have hr0 : Reachable env1 s0 := Reachable.fresh 0 1000000 npZero pyZero
    have hr1 : Reachable env1 c2s1 := Reachable.step s0 actMove21 hr0 (by
      norm_num [exceptIsOk,
        step, stepGen, TrafficManager.update_traffic, generate_emergencies, genAll, genSev,
        genMany, npPoisson, npChoice, NpRng.next, splitOutgoing, resolveIncoming,
        applyTiers, applyTiersAux, applyTier, alookup, aset, dispState,
        get_segments_per_district, cartesian, cartPairs, TrafficManager.displacement_time,
        lookupLoads, TrafficManager.get_speed, get_obs, pyInt, reset, TrafficManager.init,
        env1, cfg1, geo0, calZero, npZero, pyZero, actMove21, s0, h0, h1, h2, locA])
    exact Reachable.reset c2s1 0 1000000 npZero pyZero hr1
  · norm_num [fleetCount, sumAvail, c2r, c2s1,
      step, stepGen, TrafficManager.update_traffic, generate_emergencies, genAll, genSev,
      genMany, npPoisson, npChoice, NpRng.next, splitOutgoing, resolveIncoming,
      applyTiers, applyTiersAux, applyTier, alookup, aset, dispState,
      get_segments_per_district, cartesian, cartPairs, TrafficManager.displacement_time,
      lookupLoads, TrafficManager.get_speed, get_obs, pyInt, reset, TrafficManager.init,
      env1, cfg1, geo0, calZero, npZero, pyZero, actMove21, s0, h0, h1, h2, locA]
  · norm_num [fleetSize, sumAvail, env1, cfg1, h0, h1, h2]

/-- C2 (amended): what conservation survives.  Along error-free `step` calls
from the first reset of a fresh environment, the sum of `available_amb` over
all hospitals plus the in-flight ambulances (the fleet count) equals the
configured fleet size exactly.  Across an arbitrary sequence of `reset` and
error-free `step` calls only the inequality holds: each reset discards the
in-flight ambulances while the no-op restore keeps the mutated
availabilities, so the fleet count can only leak downward. -/
theorem c2_conservation (env : Env) (s : CityState) :
    (StepReach env s → fleetCount s = fleetSize env)
    ∧ (Reachable env s → fleetCount s ≤ fleetSize env) := by
  constructor
  · intro hr
    induction hr with
    | fresh t0 t1 np py => simp [fleetCount, reset, sumAvail, fleetSize]
    | step s a hre hok ih =>
      rcases hstep : step env s a with ⟨o, s2⟩
      rw [hstep] at hok
      cases o with
      | error e => simp [exceptIsOk] at hok
      | ok v =>
        have h2 := step_ok_fleet env s a v s2 hstep
        show fleetCount s2 = fleetSize env
        omega
  · intro hr
    induction hr with
    | fresh t0 t1 np py => simp [fleetCount, reset, sumAvail, fleetSize]
    | reset s t0 t1 np py hre ih =>
      have hred : fleetCount (reset env s.hospitals t0 t1 np py)
          = sumAvail s.hospitals := by
        simp [fleetCount, reset]
      rw [hred]
      unfold fleetCount at ih
      omega
    | step s a hre hok ih =>
      rcases hstep : step env s a with ⟨o, s2⟩
      rw [hstep] at hok
      cases o with
      | error e => simp [exceptIsOk] at hok
      | ok v =>
        have h2 := step_ok_fleet env s a v s2 hstep
        show fleetCount s2 ≤ fleetSize env
        omega

/-- Witness for C2 (amended) at the freshly reset three-hospital
environment: its fleet count equals the configured fleet size. -/
theorem c2_conservation_witness : fleetCount s0 = fleetSize env1 :=
  (c2_conservation env1 s0).1 (StepReach.fresh 0 1000000 npZero pyZero)

/-- C7 (counterexample): availability bounds are violated on reachable
states: after a reset of the three-hospital configuration (hospital 1
configured with 0 ambulances, hospital 2 with 1) and two steps containing a
single tier-0 reposition from hospital 1 to hospital 2, hospital 1 holds -1
available ambulances and hospital 2 holds 2, exceeding its configured fleet
size of 1. -/
theorem c7_counterexample_bounds_violated :
    Reachable env1 c7s2
    ∧ (alookup 1 c7s2.hospitals).map Hospital.available_amb = some (-1)
    ∧ (alookup 2 c7s2.hospitals).map Hospital.available_amb = some 2
    ∧ (alookup 2 env1.cfg.hospitals).map Hospital.available_amb = some 1 := by
  refine ⟨?_, ?_, ?_, ?_⟩
  · have hr0 : Reachable env1 s0 := Reachable.fresh 0 1000000 npZero pyZero
    have hr1 : Reachable env1 c7s1 := Reachable.step s0 actMove12 hr0 (by
      norm_num [exceptIsOk,
        step, stepGen, TrafficManager.update_traffic, generate_emergencies, genAll, genSev,
        genMany, npPoisson, npChoice, NpRng.next, splitOutgoing, resolveIncoming,
        applyTiers, applyTiersAux, applyTier, alookup, aset, dispState,
        get_segments_per_district, cartesian, cartPairs, TrafficManager.displacement_time,
        lookupLoads, TrafficManager.get_speed, get_obs, pyInt, reset, TrafficManager.init,
        env1, cfg1, geo0, calZero, npZero, pyZero, actMove12, s0, h0, h1, h2, locA])
    exact Reachable.step c7s1 act0 hr1 (by
      norm_num [exceptIsOk, c7s1,
        step, stepGen, TrafficManager.update_traffic, generate_emergencies, genAll, genSev,
        genMany, npPoisson, npChoice, NpRng.next, splitOutgoing, resolveIncoming,
        applyTiers, applyTiersAux, applyTier, alookup, aset, dispState,
        get_segments_per_district, cartesian, cartPairs, TrafficManager.displacement_time,
        lookupLoads, TrafficManager.get_speed, get_obs, pyInt, reward_f, tdSeconds,
        reset, TrafficManager.init,
        env1, cfg1, geo0, calZero, npZero, pyZero, act0, actMove12, s0, h0, h1, h2, locA])
  all_goals
    norm_num [c7s2, c7s1,
      step, stepGen, TrafficManager.update_traffic, generate_emergencies, genAll, genSev,
      genMany, npPoisson, npChoice, NpRng.next, splitOutgoing, resolveIncoming,
      applyTiers, applyTiersAux, applyTier, alookup, aset, dispState,
      get_segments_per_district, cartesian, cartPairs, TrafficManager.displacement_time,
      lookupLoads, TrafficManager.get_speed, get_obs, pyInt, reward_f, tdSeconds,
      reset, TrafficManager.init,
      env1, cfg1, geo0, calZero, npZero, pyZero, act0, actMove12, s0, h0, h1, h2, locA]

/-- C7 (amended): what does hold of the availability bounds: a severity ≥ 1
tier application never drives any hospital's availability below zero (the
zero-availability guard protects the decrement); the violations are confined
to tier-0 repositioning (no guard) for the lower bound and to arrival
crediting (no capacity cap) for the upper bound, as the counterexample
shows. -/
theorem c7_sev_dispatch_keeps_nonneg (env : Env) (sev : ℕ) (st en : ℤ)
    (s s2 : CityState) (hsev : sev ≠ 0)
    (hpos : ∀ kv ∈ s.hospitals, 0 ≤ (kv : ℤ × Hospital).2.available_amb)
    (hok : applyTier env sev st en s = .ok s2) :
    ∀ kv ∈ s2.hospitals, 0 ≤ (kv : ℤ × Hospital).2.available_amb := by
  unfold applyTier at hok
  simp only [] at hok
  split at hok
  · exact absurd hok (by simp)
  · next start_hospital heqs =>
    split at hok
    · exact absurd hok (by simp)
    · next end_hospital heqe =>
      rw [if_neg hsev] at hok
      split at hok
      · obtain rfl := Except.ok.inj hok
        exact hpos
      · split at hok
        · obtain rfl := Except.ok.inj hok
          exact hpos
        · next emergency qrest hq =>
          split at hok
          · next hz =>
            obtain rfl := Except.ok.inj hok
            exact hpos
          · next hz =>
            split at hok
            · exact absurd hok (by simp)
            · next ttobj s2x heq =>
              split at hok
              · exact absurd hok (by simp)
              · next tt2 s3x heq2 =>
                obtain rfl := (Except.ok.inj hok).symm
                obtain ⟨-, -, -, hH, -, -, -, -⟩ := dispState_ok_proj _ _ _ _ _ _ heq
                obtain ⟨-, -, -, hH2, -, -, -, -⟩ := dispState_ok_proj _ _ _ _ _ _ heq2
                have hH1 : s2x.hospitals = aset st
                    { start_hospital with
                        available_amb := start_hospital.available_amb - 1 } s.hospitals := hH
                intro kv hkv
                have hkv0 : kv ∈ s3x.hospitals := hkv
                rw [hH2, hH1] at hkv0
                rcases mem_aset _ _ _ _ hkv0 with h1 | h1
                · have hmem := alookup_mem st s.hospitals start_hospital heqs
                  have := hpos (st, start_hospital) hmem
                  subst h1
                  simp only []
                  have hz2 : start_hospital.available_amb ≠ 0 := hz
                  simp only [] at this
                  omega
                · exact hpos kv h1

/-- Witness for C7 (amended): the severity-1 tier of the null action on the
fresh state preserves nonnegative availabilities, in particular hospital 2
keeps its 1 ambulance. -/
theorem c7_sev_dispatch_keeps_nonneg_witness : 0 ≤ h2.available_amb := by
  have hok : applyTier env1 1 0 0 s0 = .ok s0 := by
    norm_num [applyTier, alookup, s0, reset, env1, cfg1, h0, h1, h2, locA]
  have hpos : ∀ kv ∈ s0.hospitals, 0 ≤ (kv : ℤ × Hospital).2.available_amb := by
    intro kv hkv
    simp only [s0, reset, env1, cfg1, List.mem_cons, List.not_mem_nil, or_false] at hkv
    rcases hkv with h | h | h <;> subst h <;> norm_num [h0, h1, h2]
  have H := c7_sev_dispatch_keeps_nonneg env1 1 0 0 s0 s0 (by norm_num) hpos hok
  exact H (2, h2) (by simp [s0, reset, env1, cfg1])

/-- C9: monotonic travel time for a fixed traffic snapshot (no refresh is
triggered: the elapsed time stays within the update period).  The segment
list is `base ++ [(Missing, m)]`, where by C8 the Missing residual `m` is
exactly the straight-line distance minus the fixed per-district segments, so
increasing straight-line distance with the route's per-district segments
fixed means increasing `m` — and the estimate never decreases (part 1).
Increasing the congestion load of any traversed district (pointwise larger
snapshot, all loads within [0, max_load)) never decreases the estimate
either, provided all segment lengths (including the residual) are nonnegative
(part 2); the Missing bucket's load is the average of the traversed loads
and so also never decreases. -/
theorem c9_monotone_travel_time (tm : TrafficManager) (base : List (DKey × ℚ))
    (time : ℚ) (loads : List ℚ)
    (hnc : ¬ tm.update_period < time - tm.last_update)
    (hspeed : 0 < tm.max_avg_speed) (hml : 0 < tm.max_load)
    (hkeys : ∀ kv ∈ base, (kv : DKey × ℚ).1 ≠ DKey.missing)
    (hne : base ≠ [])
    (hlk : lookupLoads tm.traffic (base.map Prod.fst) = some loads)
    (hloads : ∀ l ∈ loads, 0 ≤ l ∧ l < tm.max_load) :
    (∀ m m2 T T2, m ≤ m2 →
      (tm.displacement_time (base ++ [(DKey.missing, m)]) time).toOption.map Prod.fst
        = some T →
      (tm.displacement_time (base ++ [(DKey.missing, m2)]) time).toOption.map Prod.fst
        = some T2 →
      T ≤ T2)
    ∧ (∀ (tr2 : List (DKey × ℚ)) (loads2 : List ℚ) (m T T2),
      0 ≤ m →
      (∀ kv ∈ base, 0 ≤ (kv : DKey × ℚ).2) →
      lookupLoads tr2 (base.map Prod.fst) = some loads2 →
      List.Forall₂ (fun x y => x ≤ y) loads loads2 →
      (∀ l ∈ loads2, l < tm.max_load) →
      (tm.displacement_time (base ++ [(DKey.missing, m)]) time).toOption.map Prod.fst
        = some T →
      (TrafficManager.displacement_time { tm with traffic := tr2 }
        (base ++ [(DKey.missing, m)]) time).toOption.map Prod.fst = some T2 →
      T ≤ T2) := by
  have hLne : loads ≠ [] := by
    intro hz
    have hl := lookupLoads_length tm.traffic (base.map Prod.fst) loads hlk
    subst hz
    simp only [List.length_nil, List.length_map] at hl
    exact hne (List.length_eq_zero.mp hl.symm)
  have havg := avg_bounds tm.max_load loads hLne
    (fun l hl => (hloads l hl).1) (fun l hl => (hloads l hl).2)
  have hsp : 0 < tm.get_speed (loads.sum / (loads.length : ℚ)) :=
    get_speed_pos tm _ hspeed hml havg.2
  constructor
  · intro m m2 T T2 hm12 hT hT2
    rw [displacement_time_eval tm base m time loads hnc hkeys hlk hne] at hT
    rw [displacement_time_eval tm base m2 time loads hnc hkeys hlk hne] at hT2
    simp only [Except.toOption, Option.map_some', Option.some.injEq] at hT hT2
    subst hT
    subst hT2
    have hdiv : m / tm.get_speed (loads.sum / (loads.length : ℚ))
        ≤ m2 / tm.get_speed (loads.sum / (loads.length : ℚ)) :=
      (div_le_div_right hsp).mpr hm12
    have h36 : (0 : ℚ) ≤ 3600 := by norm_num
    apply mul_le_mul_of_nonneg_right _ h36
    linarith
  · intro tr2 loads2 m T T2 hm0 hd0 hlk2x hrel hl2max hT hT2
    rw [displacement_time_eval tm base m time loads hnc hkeys hlk hne] at hT
    rw [displacement_time_eval { tm with traffic := tr2 } base m time loads2
      (by exact hnc) hkeys hlk2x hne] at hT2
    have hgs : ∀ l : ℚ,
        TrafficManager.get_speed { tm with traffic := tr2 } l = tm.get_speed l :=
      fun _ => rfl
    simp only [hgs] at hT2
    simp only [Except.toOption, Option.map_some', Option.some.injEq] at hT hT2
    subst hT
    subst hT2
    have hL2ne : loads2 ≠ [] := by
      intro hz
      have hl := lookupLoads_length tr2 (base.map Prod.fst) loads2 hlk2x
      subst hz
      simp only [List.length_nil, List.length_map] at hl
      exact hne (List.length_eq_zero.mp hl.symm)
    have h0loads2 : ∀ y ∈ loads2, 0 ≤ y := by
      intro y hy
      obtain ⟨x, hx, hxy⟩ := forall2_exists_left hrel y hy
      exact le_trans (hloads x hx).1 hxy
    have havg2 := avg_bounds tm.max_load loads2 hL2ne h0loads2 hl2max
    have hsp2 : 0 < tm.get_speed (loads2.sum / (loads2.length : ℚ)) :=
      get_speed_pos tm _ hspeed hml havg2.2
    have hlen12 : loads.length = loads2.length := hrel.length_eq
    have havgle : loads.sum / (loads.length : ℚ) ≤ loads2.sum / (loads2.length : ℚ) := by
      rw [← hlen12]
      have hlp : 0 < (loads.length : ℚ) := by
        have : loads.length ≠ 0 := fun hz => hLne (List.length_eq_zero.mp hz)
        positivity
      exact (div_le_div_right hlp).mpr (forall2_sum_le loads loads2 hrel)
    have hmterm : m / tm.get_speed (loads.sum / (loads.length : ℚ))
        ≤ m / tm.get_speed (loads2.sum / (loads2.length : ℚ)) :=
      div_le_div_of_nonneg_left hm0 hsp2
        (get_speed_anti tm _ _ hspeed hml havgle)
    have hsum : (((base.map Prod.snd).zip loads).map
          (fun dl => dl.1 / tm.get_speed dl.2)).sum
        ≤ (((base.map Prod.snd).zip loads2).map
          (fun dl => dl.1 / tm.get_speed dl.2)).sum := by
      apply zip_div_sum_le tm hspeed hml (base.map Prod.snd) loads loads2 hrel
      · intro d hd
        simp only [List.mem_map] at hd
        obtain ⟨kv, hkv, rfl⟩ := hd
        exact hd0 kv hkv
      · exact hl2max
    have h36 : (0 : ℚ) ≤ 3600 := by norm_num
    apply mul_le_mul_of_nonneg_right _ h36
    linarith

/-- Witness for C9: a single district with load 0 and 1 km of assigned
distance; residuals 0 versus 1 for part 1, and snapshot loads 0 versus 25
for part 2. -/
theorem c9_monotone_travel_time_witness :
    (60 : ℚ) ≤ 120 ∧ (60 : ℚ) ≤ 80 := by
  have H := c9_monotone_travel_time tmW [(DKey.dist 1, 1)] 0 [0]
    (by norm_num [tmW, TrafficManager.init])
    (by norm_num [tmW, TrafficManager.init])
    (by norm_num [tmW, TrafficManager.init])
    (by intro kv hkv; simp only [List.mem_cons, List.not_mem_nil, or_false] at hkv;
        subst hkv; simp)
    (by simp)
    (by norm_num [tmW, TrafficManager.init, lookupLoads, alookup])
    (by intro l hl; simp only [List.mem_cons, List.not_mem_nil, or_false] at hl;
        subst hl; norm_num [tmW, TrafficManager.init])
  refine ⟨H.1 0 1 60 120 (by norm_num) ?_ ?_,
          H.2 [(DKey.dist 1, 25)] [25] 0 60 80 (by norm_num) ?_ ?_ ?_ ?_ ?_ ?_⟩
  · norm_num [tmW, TrafficManager.init, TrafficManager.displacement_time,
      TrafficManager.update_traffic, lookupLoads, alookup, aset,
      TrafficManager.get_speed, Except.toOption]
  · norm_num [tmW, TrafficManager.init, TrafficManager.displacement_time,
      TrafficManager.update_traffic, lookupLoads, alookup, aset,
      TrafficManager.get_speed, Except.toOption]
  · intro kv hkv
    simp only [List.mem_cons, List.not_mem_nil, or_false] at hkv
    subst hkv
    norm_num
  · norm_num [lookupLoads, alookup]
  · exact List.Forall₂.cons (by norm_num) List.Forall₂.nil
  · intro l hl
    simp only [List.mem_cons, List.not_mem_nil, or_false] at hl
    subst hl
    norm_num [tmW, TrafficManager.init]
  · norm_num [tmW, TrafficManager.init, TrafficManager.displacement_time,
      TrafficManager.update_traffic, lookupLoads, alookup, aset,
      TrafficManager.get_speed, Except.toOption]
  · norm_num [tmW, TrafficManager.init, TrafficManager.displacement_time,
      TrafficManager.update_traffic, lookupLoads, alookup, aset,
      TrafficManager.get_speed, Except.toOption]

/-- C4 (amended): determinism does hold as long as no traffic refresh is
ever triggered — with the same seed, the same reset arguments and the same
actions, two runs that differ only in the hidden state of the (unseeded)
stdlib random source produce identical step outcomes (observations, rewards,
done flags) whenever the episode is short enough that the elapsed time never
exceeds the TrafficManager's default update period of 9000 seconds, because
that source is consulted only by the traffic resampling branch. -/
theorem c4_determinism_under_no_refresh (env : Env) (hs : List (ℤ × Hospital))
    (t0 t1 : ℚ) (value : ℕ) (pyA pyB : PyRng) (acts : List Action)
    (hq : 0 ≤ env.time_step_seconds)
    (hbound : (acts.length : ℚ) * env.time_step_seconds ≤ 9000) :
    (runSteps env (reset env hs t0 t1 (seed env value) pyA) acts).1
      = (runSteps env (reset env hs t0 t1 (seed env value) pyB) acts).1 := by
  have hA : reset env hs t0 t1 (seed env value) pyA
      = setPy (reset env hs t0 t1 (seed env value) pyB) pyA := rfl
  rw [hA, runSteps_setPy env acts (reset env hs t0 t1 (seed env value) pyB) pyA hq
    (by show t0 - t0 + (acts.length : ℚ) * env.time_step_seconds ≤ 9000; linarith)]

/-- Witness for C4 (amended): a single 60-second step of the three-hospital
environment is identical across the two stdlib-random states that the
counterexample distinguishes. -/
theorem c4_determinism_under_no_refresh_witness :
    (runSteps env1
        (reset env1 env1.cfg.hospitals 0 1000000 (seed env1 7) py10) [actMove12]).1
      = (runSteps env1
        (reset env1 env1.cfg.hospitals 0 1000000 (seed env1 7) py90) [actMove12]).1 :=
  c4_determinism_under_no_refresh env1 env1.cfg.hospitals 0 1000000 7 py10 py90
    [actMove12] (by norm_num [env1]) (by norm_num [env1])

/-- C4 (counterexample): two runs with the same seed (hence the same numpy
stream), the same reset arguments and the same action sequence, but different
hidden states of the stdlib `random` source — which `CitySim.seed` does not
seed and which the traffic refresh draws from — produce different
observations at the second step: the reposition ambulance arrives in run A
(load 10, 25 km at 54 km/h) but not in run B (load 90, 6 km/h). -/
theorem c4_counterexample_unseeded_traffic_rng :
    outsOf c4runA.1 ≠ outsOf c4runB.1 := by
  norm_num [outsOf, Except.toOption, c4runA, c4runB, c4acts, runSteps,
    step, stepGen, TrafficManager.update_traffic, generate_emergencies, genAll, genSev,
    genMany, npPoisson, npChoice, NpRng.next, splitOutgoing, resolveIncoming,
    applyTiers, applyTiersAux, applyTier, alookup, aset, dispState,
    get_segments_per_district, cartesian, cartPairs, TrafficManager.displacement_time,
    lookupLoads, TrafficManager.get_speed, sampleLoads, triangular, PyRng.next,
    get_obs, pyInt, reward_f, tdSeconds, reset, TrafficManager.init,
    env4, cfg4, cfg1, geo4, calZero, npZero, py10, py90, actMove12, act0,
    h0, h1, h2, locA, locB, Obs.mk.injEq]

/-- C1 (code-bug evaluation): starting from a state with a single incoming
ambulance (reward 7) whose hospital-arrival time 1000 lies in the future,
a `step` at time 60 leaves the incoming list empty and moves the ambulance to
the outgoing list (the source appends to `new_outgoing` on line 147); the
following two steps then each re-add its stored reward, so the reward is
contributed more than once over the ambulance's lifetime. -/
theorem c1_incoming_misappended_and_reward_doubled :
    c1r1.2.incoming_ambulances = []
    ∧ c1r1.2.outgoing_ambulances =
        [{ tobjective := 0, thospital := 1000, destination := 1, reward := 7 }]
    ∧ stepReward c1r1.1 = some 0
    ∧ stepReward c1r2.1 = some 7
    ∧ stepReward c1r3.1 = some 7 := by
  refine ⟨?_, ?_, ?_, ?_, ?_⟩ <;>
    norm_num [c1r1, c1r2, c1r3, c1s0, stepReward, Except.toOption,
      step, stepGen, TrafficManager.update_traffic, generate_emergencies, genAll, genSev,
      genMany, npPoisson, npChoice, NpRng.next, splitOutgoing, resolveIncoming,
      applyTiers, applyTiersAux, applyTier, alookup, aset, dispState,
      get_segments_per_district, cartesian, cartPairs, TrafficManager.displacement_time,
      lookupLoads, TrafficManager.get_speed, sampleLoads, triangular, PyRng.next,
      get_obs, pyInt, reward_f, tdSeconds, reset, TrafficManager.init,
      env1, cfg1, geo0, calZero, npZero, pyZero, act0, s0, h0, h1, h2, locA]

/-- C3 (code-bug evaluation): a severity-1 dispatch whose travel time to the
emergency is exactly 100 seconds stores reward `(-ttobj).seconds * severity`
= 86300 on the launched ambulance — positive — where the specification's
formula `-ttobj_seconds * severity` demands -100. -/
theorem c3_reward_sign_bug :
    (applyTier env3 1 1 0 s3c).toOption.map
        (fun s2 => s2.outgoing_ambulances.map MovingAmb.reward) = some [86300]
    ∧ (applyTier env3 1 1 0 s3c).toOption.map
        (fun s2 => s2.outgoing_ambulances.map MovingAmb.tobjective) = some [100]
    ∧ reward_f (-(100 : ℚ)) 1 = 86300
    ∧ ¬ reward_f (-(100 : ℚ)) 1 ≤ 0
    ∧ reward_f (-(100 : ℚ)) 1 ≠ -100 * 1 := by
  refine ⟨?_, ?_, ?_, ?_, ?_⟩ <;>
    norm_num [Except.toOption, applyTier, alookup, aset, dispState,
      get_segments_per_district, cartesian, cartPairs, TrafficManager.displacement_time,
      lookupLoads, TrafficManager.get_speed, TrafficManager.update_traffic,
      reward_f, tdSeconds_neg100, reset, TrafficManager.init,
      env3, cfg3, cfg1, geo3, calZero, npZero, pyZero, s3c, em3, h0, h2, locA]

/-- C5 (counterexample): with a configuration whose hospitals dict has ids 1
and 2 only (as in the specification's own example scenario), the all-null
action does not skip tier 0 quietly: the source looks the null id 0 up in the
hospitals dict before any null check and raises KeyError. -/
theorem c5_counterexample_null_raises :
    tierIsKeyError (applyTier env5 0 0 0 s5) = true
    ∧ isKeyError (step env5 s5 act0).1 = true := by
  constructor <;>
    norm_num [tierIsKeyError, isKeyError,
      step, stepGen, TrafficManager.update_traffic, generate_emergencies, genAll, genSev,
      genMany, npPoisson, npChoice, NpRng.next, splitOutgoing, resolveIncoming,
      applyTiers, applyTiersAux, applyTier, alookup, aset, dispState,
      get_obs, pyInt, reset, TrafficManager.init,
      env5, cfg5, cfg1, geo0, calZero, npZero, pyZero, act0, s5, h1, h2, locA]

/-- C5 (amended): provided the hospitals dict resolves every id the tier
mentions — in particular it must contain an entry for the null sentinel 0,
which the source looks up before any null check — tier 0 with a null start or
end id is a no-op returning the state unchanged; a null start id in tiers
≥ 1 is likewise a no-op; and a null end id in tiers ≥ 1 behaves exactly as
if the end hospital were the start hospital. -/
theorem c5_null_handling (env : Env) (s : CityState) (hz : Hospital)
    (h0 : alookup (0 : ℤ) s.hospitals = some hz) :
    (∀ st en : ℤ, (st = 0 ∨ en = 0) → (alookup st s.hospitals).isSome →
        (alookup en s.hospitals).isSome → applyTier env 0 st en s = .ok s)
    ∧ (∀ (sev : ℕ) (en : ℤ), sev ≠ 0 → (alookup en s.hospitals).isSome →
        applyTier env sev 0 en s = .ok s)
    ∧ (∀ (sev : ℕ) (st : ℤ), sev ≠ 0 →
        applyTier env sev st 0 s = applyTier env sev st st s) := by
  refine ⟨?_, ?_, ?_⟩
  · intro st en hnull hst hen
    obtain ⟨sh, hsh⟩ := Option.isSome_iff_exists.mp hst
    obtain ⟨eh, heh⟩ := Option.isSome_iff_exists.mp hen
    unfold applyTier
    rw [hsh, heh]
    simp [hnull.symm]
  · intro sev en hsev hen
    obtain ⟨eh, heh⟩ := Option.isSome_iff_exists.mp hen
    unfold applyTier
    rw [h0, heh]
    simp [hsev]
  · intro sev st hsev
    unfold applyTier
    cases hst : alookup st s.hospitals with
    | none => rfl
    | some sh =>
      rw [h0]
      by_cases hst0 : st = 0
      · simp [hsev, hst0]
      · simp [hsev, hst0]

/-- Witness for C5 (amended) on the concrete three-hospital configuration
(which includes a dummy entry for id 0). -/
theorem c5_null_handling_witness :
    applyTier env1 0 0 0 s0 = .ok s0
    ∧ applyTier env1 1 0 0 s0 = .ok s0
    ∧ applyTier env1 1 1 0 s0 = applyTier env1 1 1 1 s0 := by
  have hz : alookup (0 : ℤ) s0.hospitals = some h0 := by
    norm_num [s0, reset, env1, cfg1, alookup]
  obtain ⟨A, B, C⟩ := c5_null_handling env1 s0 h0 hz
  refine ⟨A 0 0 (Or.inl rfl) ?_ ?_, B 1 0 (by norm_num) ?_, C 1 1 (by norm_num)⟩ <;>
    norm_num [s0, reset, env1, cfg1, alookup]

/-- C6 (counterexample): an action referencing the nonexistent hospital id 99
makes `step` raise a KeyError, but the state is not left unchanged — the
simulated time has already been advanced. -/
theorem c6_counterexample_error_state_mutated :
    isKeyError (step env5 s5 act99).1 = true
    ∧ (step env5 s5 act99).2.time ≠ s5.time := by
  constructor
  · norm_num [isKeyError,
      step, stepGen, TrafficManager.update_traffic, generate_emergencies, genAll, genSev,
      genMany, npPoisson, npChoice, NpRng.next, splitOutgoing, resolveIncoming,
      applyTiers, applyTiersAux, applyTier, alookup, aset, dispState,
      get_obs, pyInt, reset, TrafficManager.init,
      env5, cfg5, cfg1, geo0, calZero, npZero, pyZero, act99, s5, h1, h2, locA]
  · rw [step_time env5 s5 act99]
    norm_num [s5, reset, env5, env1]

/-- C6 (amended): when `step` raises, the failure is a defined error value,
but the step is not transactional: the returned state has its simulated time
already advanced by one step (and the generation/resolution effects kept). -/
theorem c6_error_still_advances_time (env : Env) (s : CityState) (a : Action)
    (e : PyErr) (s2 : CityState) (h : step env s a = (.error e, s2)) :
    s2.time = s.time + env.time_step_seconds := by
  have ht := step_time env s a
  rw [h] at ht
  exact ht

/-- Witness for C6 (amended) at the concrete erroring step. -/
theorem c6_error_still_advances_time_witness :
    (step env5 s5 act99).2.time = s5.time + env5.time_step_seconds := by
  rcases h : step env5 s5 act99 with ⟨o, s2⟩
  cases o with
  | error e =>
    exact c6_error_still_advances_time env5 s5 act99 e s2 h
  | ok v =>
    have hk : isKeyError (step env5 s5 act99).1 = true := by
      norm_num [isKeyError,
        step, stepGen, TrafficManager.update_traffic, generate_emergencies, genAll, genSev,
        genMany, npPoisson, npChoice, NpRng.next, splitOutgoing, resolveIncoming,
        applyTiers, applyTiersAux, applyTier, alookup, aset, dispState,
        get_obs, pyInt, reset, TrafficManager.init,
        env5, cfg5, cfg1, geo0, calZero, npZero, pyZero, act99, s5, h1, h2, locA]
    rw [h] at hk
    simp [isKeyError] at hk

/-- Witness for C10 with concrete update times 1, 8000 and exactly 9000
seconds after a reset at time 0. -/
theorem c10_traffic_zero_until_period_witness :
    (trafficAfter env1 0 1000000 npZero pyZero [1, 8000, 9000]).traffic
        = [(DKey.dist 1, 0)]
    ∧ alookup (DKey.dist 1)
        (trafficAfter env1 0 1000000 npZero pyZero [1, 8000, 9000]).traffic = some 0
    ∧ (trafficAfter env1 0 1000000 npZero pyZero [1, 8000, 9000]).get_speed 0
        = (trafficAfter env1 0 1000000 npZero pyZero [1, 8000, 9000]).max_avg_speed := by
  have h := c10_traffic_zero_until_period env1 0 1000000 npZero pyZero [1, 8000, 9000]
    (by intro t ht; fin_cases ht <;> norm_num)
  exact ⟨h.1, h.2.1 1 (by simp [env1, cfg1]), h.2.2⟩

end Samur
